import Mathlib

/-!
Verification of the `pagepull` mirror engine (`src/pagepull.py`).

The development shallowly embeds the parts of the program that the claims
concern: the Python `urllib.parse` / `os.path` routines the source calls
(`urlsplit`, `urlparse`, `urljoin`, `unquote`, `parse_qs`, `splitext`,
`join`, `dirname`, `relpath`), the `AssetFilter` and `RobotsHandler`
classes, and the `WebsiteDownloader` methods `normalize_url`,
`is_same_domain`, `get_local_path`, `get_local_path_for_nextjs_image`,
`get_relative_path_from_cache`, `download_file`, `_download_asset_task`,
`extract_links` and the frontier logic of `process_page`.

Strings are modelled ASCII-faithfully (Python `str.lower`/`str.strip`
agree with the ASCII versions below on ASCII input, which is all the
engine manipulates).  Exceptions are modelled with `Except String`;
an `Except.error` is a raised Python exception.  HTTP and the DOM are
oracles supplied through an environment record: a fetch function from
(url, extra headers) to an optional response (`none` models a transport
exception), and a function giving the anchor hrefs of a parsed HTML body.
-/

set_option maxRecDepth 4000
set_option autoImplicit false

namespace PagePull

/-! ## Python string helpers (`str` methods, ASCII-faithful) -/

def asciiLower (c : Char) : Char :=
  if 'A' ≤ c ∧ c ≤ 'Z' then Char.ofNat (c.toNat + 32) else c

/-- Python `s.lower()` (ASCII range). -/
def pyLower (s : String) : String := String.mk (s.data.map asciiLower)

/-- Python `s.startswith(t)`. -/
def startsWithS (s t : String) : Bool := t.data.isPrefixOf s.data

/-- Python `s.endswith(t)`. -/
def endsWithS (s t : String) : Bool := t.data.isSuffixOf s.data

def infixAux (pat : List Char) : List Char → Bool
  | [] => pat.isEmpty
  | c :: rest => pat.isPrefixOf (c :: rest) || infixAux pat rest

/-- Python `pat in s` substring membership. -/
def containsS (s pat : String) : Bool := infixAux pat.data s.data

def splitChAux (sep : Char) : List Char → List Char → List (List Char)
  | [], cur => [cur.reverse]
  | c :: rest, cur =>
    if c = sep then cur.reverse :: splitChAux sep rest []
    else splitChAux sep rest (c :: cur)

/-- Python `s.split(sep)` for a one-character separator (`"".split(c) = [""]`). -/
def pySplit (sep : Char) (s : String) : List String :=
  (splitChAux sep s.data []).map String.mk

/-- Python `s.split(sep, 1)`: first occurrence, or `none` when absent. -/
def splitOnceAux (sep : Char) : List Char → Option (List Char × List Char)
  | [] => none
  | c :: rest =>
    if c = sep then some ([], rest)
    else (splitOnceAux sep rest).map (fun p => (c :: p.1, p.2))

def idxOfAux (sep : Char) : List Char → Nat → Option Nat
  | [], _ => none
  | c :: rest, i => if c = sep then some i else idxOfAux sep rest (i + 1)

/-- Python `s.find(c)` (as an `Option` instead of `-1`). -/
def findCh (sep : Char) (l : List Char) : Option Nat := idxOfAux sep l 0

/-- Python `s.rfind(c)` (as an `Option` instead of `-1`). -/
def rfindCh (sep : Char) (l : List Char) : Option Nat :=
  (l.foldl (fun (acc : Option Nat × Nat) c =>
    (if c = sep then some acc.2 else acc.1, acc.2 + 1)) (none, 0)).1

/-- Python `s.find(c, start)`. -/
def findChFrom (sep : Char) (start : Nat) (l : List Char) : Option Nat :=
  (findCh sep (l.drop start)).map (· + start)

def isPySpace (c : Char) : Bool :=
  c = ' ' || c = '\t' || c = '\n' || c = '\r' || c = '\x0b' || c = '\x0c'

/-- Python `s.strip()` (ASCII whitespace). -/
def pyStrip (s : String) : String :=
  String.mk (((s.data.dropWhile isPySpace).reverse.dropWhile isPySpace).reverse)

/-- Python `s.lstrip("/")`. -/
def lstripSlashes (s : String) : String := String.mk (s.data.dropWhile (· = '/'))

/-- Python `sep.join(parts)`. -/
def joinWith (sep : String) : List String → String
  | [] => ""
  | [a] => a
  | a :: b :: rest => a ++ sep ++ joinWith sep (b :: rest)

/-- Python `s.splitlines()` for the `\n`, `\r`, `\r\n` line boundaries. -/
def splitlinesAux : List Char → List Char → List String
  | [], cur => if cur.isEmpty then [] else [String.mk cur.reverse]
  | '\r' :: '\n' :: rest, cur => String.mk cur.reverse :: splitlinesAux rest []
  | '\r' :: rest, cur => String.mk cur.reverse :: splitlinesAux rest []
  | '\n' :: rest, cur => String.mk cur.reverse :: splitlinesAux rest []
  | c :: rest, cur => splitlinesAux rest (c :: cur)

def pySplitlines (s : String) : List String := splitlinesAux s.data []

def hexVal (c : Char) : Option Nat :=
  if '0' ≤ c ∧ c ≤ '9' then some (c.toNat - '0'.toNat)
  else if 'a' ≤ c ∧ c ≤ 'f' then some (c.toNat - 'a'.toNat + 10)
  else if 'A' ≤ c ∧ c ≤ 'F' then some (c.toNat - 'A'.toNat + 10)
  else none

/-! ## UTF-8 decoding with replacement (for `bytes.decode("utf-8", "replace")`) -/

def replacementChar : Char := Char.ofNat 0xFFFD

def isCont (b : Nat) : Bool := 0x80 ≤ b ∧ b ≤ 0xBF

/-- Fuel-indexed UTF-8 decoder; each step consumes at least one byte. -/
def utf8DecodeAux : Nat → List Nat → List Char
  | 0, _ => []
  | _ + 1, [] => []
  | fuel + 1, b :: rest =>
    if b < 0x80 then
      Char.ofNat b :: utf8DecodeAux fuel rest
    else if 0xC2 ≤ b ∧ b ≤ 0xDF then
      match rest with
      | b2 :: rest2 =>
        if isCont b2 then Char.ofNat ((b - 0xC0) * 64 + (b2 - 0x80)) :: utf8DecodeAux fuel rest2
        else replacementChar :: utf8DecodeAux fuel rest
      | [] => [replacementChar]
    else if 0xE0 ≤ b ∧ b ≤ 0xEF then
      match rest with
      | b2 :: b3 :: rest3 =>
        if isCont b2 ∧ isCont b3 ∧ (b ≠ 0xE0 ∨ 0xA0 ≤ b2) ∧ (b ≠ 0xED ∨ b2 ≤ 0x9F) then
          Char.ofNat ((b - 0xE0) * 4096 + (b2 - 0x80) * 64 + (b3 - 0x80)) :: utf8DecodeAux fuel rest3
        else replacementChar :: utf8DecodeAux fuel rest
      | _ => [replacementChar]
    else if 0xF0 ≤ b ∧ b ≤ 0xF4 then
      match rest with
      | b2 :: b3 :: b4 :: rest4 =>
        if isCont b2 ∧ isCont b3 ∧ isCont b4 ∧ (b ≠ 0xF0 ∨ 0x90 ≤ b2) ∧ (b ≠ 0xF4 ∨ b2 ≤ 0x8F) then
          Char.ofNat ((b - 0xF0) * 262144 + (b2 - 0x80) * 4096 + (b3 - 0x80) * 64 + (b4 - 0x80))
            :: utf8DecodeAux fuel rest4
        else replacementChar :: utf8DecodeAux fuel rest
      | _ => [replacementChar]
    else replacementChar :: utf8DecodeAux fuel rest

def utf8DecodeReplace (bs : List Nat) : List Char := utf8DecodeAux (bs.length + 1) bs

/-! ## `urllib.parse.unquote` and `parse_qs` -/

/-- Collect a maximal run of `%XX` escapes into bytes, returning the remainder. -/
def unquoteRun : Nat → List Char → List Nat × List Char
  | 0, l => ([], l)
  | fuel + 1, l =>
    match l with
    | '%' :: c1 :: c2 :: rest =>
      match hexVal c1, hexVal c2 with
      | some h1, some h2 =>
        let p := unquoteRun fuel rest
        ((h1 * 16 + h2) :: p.1, p.2)
      | _, _ => ([], l)
    | _ => ([], l)

def unquoteAux : Nat → List Char → List Char
  | 0, _ => []
  | _ + 1, [] => []
  | fuel + 1, c :: rest =>
    if c = '%' then
      match unquoteRun (fuel + 1) (c :: rest) with
      | ([], _) => c :: unquoteAux fuel rest
      | (bs, r) => utf8DecodeReplace bs ++ unquoteAux fuel r
    else c :: unquoteAux fuel rest

/-- Python `urllib.parse.unquote(s)` (`%XX` runs decoded as UTF-8 with replacement). -/
def pyUnquote (s : String) : String := String.mk (unquoteAux (s.data.length + 1) s.data)

/-- Python `s.replace("+", " ")` as used by `parse_qsl`. -/
def plusToSpace (s : String) : String :=
  String.mk (s.data.map (fun c => if c = '+' then ' ' else c))

/-- Python `urllib.parse.parse_qsl(qs)` with default arguments
(`keep_blank_values=False`, separator `&`). -/
def pyParseQsl (qs : String) : List (String × String) :=
  (pySplit '&' qs).filterMap (fun nv =>
    if nv = "" then none
    else
      match splitOnceAux '=' nv.data with
      | none => none
      | some (name, value) =>
        if value.isEmpty then none
        else some (pyUnquote (plusToSpace (String.mk name)),
                   pyUnquote (plusToSpace (String.mk value))))

def updateAssoc (l : List (String × List String)) (k : String) (vs : List String) :
    List (String × List String) :=
  l.map (fun p => if p.1 = k then (k, vs) else p)

/-- Python `urllib.parse.parse_qs(qs)`: `parse_qsl` grouped by key. -/
def pyParseQs (qs : String) : List (String × List String) :=
  (pyParseQsl qs).foldl (fun acc kv =>
    match List.lookup kv.1 acc with
    | some vs => updateAssoc acc kv.1 (vs ++ [kv.2])
    | none => acc ++ [(kv.1, [kv.2])]) []

/-! ## `urllib.parse.urlsplit` / `urlparse` / `urlunparse` / `urljoin`

Modelled on CPython `Lib/urllib/parse.py`.  `urlsplit` raises `ValueError`
("Invalid IPv6 URL") when the authority has unbalanced square brackets;
that is the `Except.error` case below. -/

structure SplitResult where
  scheme : String
  netloc : String
  path : String
  query : String
  fragment : String
deriving Repr, DecidableEq

structure ParseResult where
  scheme : String
  netloc : String
  path : String
  params : String
  query : String
  fragment : String
deriving Repr, DecidableEq

def isSchemeChar (c : Char) : Bool := c.isAlphanum || c = '+' || c = '-' || c = '.'

/-- The scheme-recognition step of CPython `urlsplit`: chop `scheme:` off
the front when the part before the first `:` is alphanumeric-ish, else fall
back to the supplied default scheme. -/
def schemeSplit (scheme0 : String) (l : List Char) : String × List Char :=
  match findCh ':' l with
  | some i =>
    if 0 < i ∧ (l.headD ' ').isAlpha ∧ ((l.take i).drop 1).all isSchemeChar then
      (String.mk ((l.take i).map asciiLower), l.drop (i + 1))
    else (scheme0, l)
  | none => (scheme0, l)

/-- CPython `_splitnetloc`: after a leading `//`, the netloc runs up to the
first `/`, `?` or `#`. -/
def netlocSplit (l : List Char) : List Char × List Char :=
  if l.take 2 = ['/', '/'] then
    let n := (l.drop 2).takeWhile (fun c => ¬ (c = '/' ∨ c = '?' ∨ c = '#'))
    (n, (l.drop 2).drop n.length)
  else ([], l)

/-- Python `s.split(sep, 1)` when present, else `(s, "")`. -/
def splitOnceD (sep : Char) (l : List Char) : List Char × List Char :=
  match splitOnceAux sep l with
  | some p => p
  | none => (l, [])

/-- CPython `_UNSAFE_URL_BYTES_TO_REMOVE`: tab, CR and LF are removed from
the URL before splitting. -/
def stripUnsafe (s : String) : List Char :=
  s.data.filter (fun c => ¬ (c = '\t' ∨ c = '\r' ∨ c = '\n'))

/-- The tail of `urlsplit` after scheme and netloc have been chopped off:
the unbalanced-bracket `ValueError`, then the fragment and query splits
(fragment first, as in CPython). -/
def urlsplitAfterNetloc (scheme : String) (netloc rest : List Char) :
    Except String SplitResult :=
  if (netloc.contains '[' ∧ ¬ netloc.contains ']') ∨
     (netloc.contains ']' ∧ ¬ netloc.contains '[') then
    .error "Invalid IPv6 URL"
  else
    .ok ⟨scheme, String.mk netloc,
         String.mk (splitOnceD '?' (splitOnceD '#' rest).1).1,
         String.mk (splitOnceD '?' (splitOnceD '#' rest).1).2,
         String.mk (splitOnceD '#' rest).2⟩

def urlsplitE (url0 : String) (scheme0 : String) : Except String SplitResult :=
  urlsplitAfterNetloc
    (schemeSplit scheme0 (stripUnsafe url0)).1
    (netlocSplit (schemeSplit scheme0 (stripUnsafe url0)).2).1
    (netlocSplit (schemeSplit scheme0 (stripUnsafe url0)).2).2

def uses_params : List String :=
  ["", "ftp", "hdl", "prospero", "http", "imap", "https", "shttp", "rtsp", "rtspu",
   "sip", "sips", "mms", "sftp", "tel"]

/-- CPython `_splitparams`: split the params off the last path segment. -/
def paramsIdx (l : List Char) : Option Nat :=
  if l.contains '/' then
    match rfindCh '/' l with
    | some r => findChFrom ';' r l
    | none => none
  else findCh ';' l

def splitparams (p : String) : String × String :=
  match paramsIdx p.data with
  | some i => (String.mk (p.data.take i), String.mk (p.data.drop (i + 1)))
  | none => (p, "")

def urlparseWithE (url0 : String) (scheme0 : String) : Except String ParseResult :=
  match urlsplitE url0 scheme0 with
  | .error e => .error e
  | .ok s =>
    if uses_params.contains s.scheme ∧ s.path.data.contains ';' then
      let pp := splitparams s.path
      .ok ⟨s.scheme, s.netloc, pp.1, pp.2, s.query, s.fragment⟩
    else
      .ok ⟨s.scheme, s.netloc, s.path, "", s.query, s.fragment⟩

/-- Python `urllib.parse.urlparse(url)`. -/
def urlparseE (url0 : String) : Except String ParseResult := urlparseWithE url0 ""

def urlunsplit (s : SplitResult) : String :=
  let url := s.path
  let url :=
    if s.netloc ≠ "" ∨ (url ≠ "" ∧ startsWithS url "//") then
      "//" ++ s.netloc ++ (if url ≠ "" ∧ ¬ startsWithS url "/" then "/" ++ url else url)
    else url
  let url := if s.scheme ≠ "" then s.scheme ++ ":" ++ url else url
  let url := if s.query ≠ "" then url ++ "?" ++ s.query else url
  if s.fragment ≠ "" then url ++ "#" ++ s.fragment else url

/-- Python `urlunparse` / `ParseResult.geturl()`. -/
def urlunparse (p : ParseResult) : String :=
  let u := if p.params ≠ "" then p.path ++ ";" ++ p.params else p.path
  urlunsplit ⟨p.scheme, p.netloc, u, p.query, p.fragment⟩

def uses_relative : List String :=
  ["", "ftp", "http", "gopher", "nntp", "imap", "wais", "file", "https", "shttp",
   "mms", "prospero", "rtsp", "rtspu", "sftp", "svn", "svn+ssh", "ws", "wss"]

def uses_netloc : List String :=
  ["", "ftp", "http", "gopher", "nntp", "telnet", "imap", "wais", "file", "mms",
   "https", "shttp", "snews", "prospero", "rtsp", "rtspu", "rsync", "svn", "svn+ssh",
   "sftp", "nfs", "git", "git+ssh", "ws", "wss", "itms-services"]

/-- CPython `segments[1:-1] = filter(None, segments[1:-1])`. -/
def midFilter : List String → List String
  | [] => []
  | [a] => [a]
  | a :: rest =>
    match rest.getLast? with
    | some last => a :: (rest.dropLast.filter (fun x => x ≠ "")) ++ [last]
    | none => [a]

/-- The `..` / `.` resolution loop of CPython `urljoin`. -/
def resolveSegments (segments : List String) : List String :=
  let resolved := segments.foldl (fun acc seg =>
    if seg = ".." then acc.dropLast
    else if seg = "." then acc
    else acc ++ [seg]) []
  if segments.getLast? = some ".." ∨ segments.getLast? = some "." then resolved ++ [""]
  else resolved

/-- Python `urllib.parse.urljoin(base, url)`. -/
def urljoinE (base url : String) : Except String String :=
  if base = "" then .ok url
  else if url = "" then .ok base
  else
    match urlparseWithE base "" with
    | .error e => .error e
    | .ok b =>
      match urlparseWithE url b.scheme with
      | .error e => .error e
      | .ok u =>
        if u.scheme ≠ b.scheme ∨ ¬ uses_relative.contains u.scheme then .ok url
        else
          let netloc := if uses_netloc.contains u.scheme then
              (if u.netloc ≠ "" then u.netloc else b.netloc) else u.netloc
          if uses_netloc.contains u.scheme ∧ u.netloc ≠ "" then
            .ok (urlunparse ⟨u.scheme, u.netloc, u.path, u.params, u.query, u.fragment⟩)
          else if u.path = "" ∧ u.params = "" then
            let query := if u.query = "" then b.query else u.query
            .ok (urlunparse ⟨u.scheme, netloc, b.path, b.params, query, u.fragment⟩)
          else
            let base_parts0 := pySplit '/' b.path
            let base_parts :=
              if base_parts0.getLast? ≠ some "" then base_parts0.dropLast else base_parts0
            let segments :=
              if startsWithS u.path "/" then pySplit '/' u.path
              else midFilter (base_parts ++ pySplit '/' u.path)
            let rp := joinWith "/" (resolveSegments segments)
            .ok (urlunparse ⟨u.scheme, netloc, (if rp = "" then "/" else rp),
                             u.params, u.query, u.fragment⟩)

/-! ## `os.path` (posix flavour) -/

/-- Python `os.path.splitext` (leading dots of the basename start no extension). -/
def pySplitext (p : String) : String × String :=
  let l := p.data
  let sepI := rfindCh '/' l
  match rfindCh '.' l with
  | none => (p, "")
  | some dotI =>
    let fnameStart := match sepI with | some i => i + 1 | none => 0
    if fnameStart ≤ dotI then
      if ((l.drop fnameStart).take (dotI - fnameStart)).any (fun c => c ≠ '.') then
        (String.mk (l.take dotI), String.mk (l.drop dotI))
      else (p, "")
    else (p, "")

/-- Python `os.path.join(a, b)` (posix). -/
def pyJoin (a b : String) : String :=
  if startsWithS b "/" then b
  else if a = "" ∨ endsWithS a "/" then a ++ b
  else a ++ "/" ++ b

/-- Python `os.path.dirname` (posix). -/
def pyDirname (p : String) : String :=
  let l := p.data
  let i := match rfindCh '/' l with | some j => j + 1 | none => 0
  let head := l.take i
  if ¬ head.isEmpty ∧ head.any (fun c => c ≠ '/') then
    String.mk ((head.reverse.dropWhile (· = '/')).reverse)
  else String.mk head

/-- Python `posixpath.normpath`. -/
def pyNormpath (p : String) : String :=
  if p = "" then "."
  else
    let slashes : Nat :=
      if startsWithS p "/" then
        (if startsWithS p "//" ∧ ¬ startsWithS p "///" then 2 else 1)
      else 0
    let comps := pySplit '/' p
    let newComps := comps.foldl (fun acc comp =>
      if comp = "" ∨ comp = "." then acc
      else if comp ≠ ".." ∨ (slashes = 0 ∧ acc.isEmpty) ∨ (acc.getLast? = some "..") then
        acc ++ [comp]
      else if ¬ acc.isEmpty then acc.dropLast
      else acc) []
    let path := joinWith "/" newComps
    let path := String.mk (List.replicate slashes '/') ++ path
    if path = "" then "." else path

def commonLen : List String → List String → Nat
  | a :: as2, b :: bs => if a = b then commonLen as2 bs + 1 else 0
  | _, _ => 0

/-- Python `os.path.relpath(path, start)` (posix); `cwd` is the process working
directory that `os.path.abspath` resolves relative arguments against. -/
def pyRelpath (cwd path start : String) : String :=
  let pathAbs := pyNormpath (pyJoin cwd path)
  let startAbs := pyNormpath (pyJoin cwd start)
  let pl := (pySplit '/' pathAbs).filter (fun x => x ≠ "")
  let sl := (pySplit '/' startAbs).filter (fun x => x ≠ "")
  let i := commonLen sl pl
  let rel := List.replicate (sl.length - i) ".." ++ pl.drop i
  if rel.isEmpty then "." else joinWith "/" rel


/-! ## Configuration constants of `pagepull.py` -/

def ASSET_CATEGORY_MAP : List (String × List String) :=
  [("html", [".html", ".htm"]),
   ("css", [".css"]),
   ("js", [".js", ".mjs", ".ts"]),
   ("image", [".png", ".jpg", ".jpeg", ".gif", ".svg", ".webp", ".ico", ".bmp",
              ".tiff", ".avif"]),
   ("font", [".woff2", ".woff", ".ttf", ".eot", ".otf"]),
   ("media", [".mp4", ".webm", ".mp3", ".wav", ".ogg", ".mov"]),
   ("doc", [".pdf", ".txt", ".xml", ".json"])]

/-! ## `AssetFilter` -/

/-- `AssetFilter` state after `__init__`: type sets already lowercased,
patterns compiled.  A compiled regex is abstracted as the truth function of
`pattern.search(url)`. -/
structure AssetFilter where
  include_types : List String
  exclude_types : List String
  min_size : Option Nat
  max_size : Option Nat
  include_patterns : List (String → Bool)
  exclude_patterns : List (String → Bool)

/-- `AssetFilter.__init__` from the raw constructor arguments. -/
def mkAssetFilter (include_types exclude_types : List String)
    (include_patterns exclude_patterns : List (String → Bool))
    (min_size max_size : Option Nat) : AssetFilter :=
  ⟨include_types.map pyLower, exclude_types.map pyLower, min_size, max_size,
   include_patterns, exclude_patterns⟩

/-- `AssetFilter.allows`; `category = ""` models a Python falsy category
(`None` or the empty string), which the source replaces with `"other"`. -/
def AssetFilter.allows (f : AssetFilter) (url : String) (category : String) : Bool :=
  let category := if category = "" then "other" else category
  let cat := pyLower category
  if ¬ f.include_types.isEmpty ∧ ¬ f.include_types.contains cat then false
  else if f.exclude_types.contains cat then false
  else if f.exclude_patterns.any (fun p => p url) then false
  else if ¬ f.include_patterns.isEmpty then f.include_patterns.any (fun p => p url)
  else true

/-- `AssetFilter.allows_size` (`none` size models Python `None`). -/
def AssetFilter.allows_size (f : AssetFilter) (size_bytes : Option Nat) : Bool :=
  match size_bytes with
  | none => true
  | some n =>
    if f.min_size.isSome ∧ n < f.min_size.getD 0 then false
    else if f.max_size.isSome ∧ f.max_size.getD 0 < n then false
    else true

/-! ## `RobotsHandler`

`RobotFileParser` is an external collaborator (spec §1); its `parse` result
is abstracted as a `(user_agent, url) → Bool` matcher supplied by the
environment.  `float(...)` is likewise abstracted: `parseFloat` returns the
accepted source text, or `none` for a `ValueError`. -/

structure RobotsHttp where
  status : Nat
  text : String

structure RobotsEnv where
  robotsFetch : String → Option RobotsHttp
  parseRules : List String → (String → String → Bool)
  parseFloat : String → Option String

structure RobotsHandler where
  base_url : String
  user_agent : String
  loaded : Bool
  crawl_delay : Option String
  disallowed_paths : List String
  allow_all : Bool
  parserRules : Option (String → String → Bool)

/-- `RobotsHandler.__init__`. -/
def mkRobotsHandler (base_url user_agent : String) : RobotsHandler :=
  ⟨base_url, user_agent, false, none, [], false, none⟩

/-- The response-body sniff in `RobotsHandler.load`: a 200 body that looks
like HTML or JSON is treated as "no robots.txt". -/
def looksNonRobots (content : String) : Bool :=
  containsS (pyLower content) "<html" || containsS (pyLower content) "<!doctype" ||
  startsWithS content "\x7b"

/-- One iteration of the crawl-delay / disallow extraction loop in
`RobotsHandler.load`. -/
def robotsLineStep (env : RobotsEnv) (h : RobotsHandler) (line : String) : RobotsHandler :=
  let h :=
    if startsWithS (pyLower line) "crawl-delay:" then
      match (pySplit ':' line).get? 1 with
      | some v =>
        match env.parseFloat (pyStrip v) with
        | some f => {h with crawl_delay := some f}
        | none => h
      | none => h
    else h
  if startsWithS (pyLower line) "disallow:" then
    match (pySplit ':' line).get? 1 with
    | some v =>
      let p := pyStrip v
      if p ≠ "" then {h with disallowed_paths := h.disallowed_paths ++ [p]} else h
    | none => h
  else h

/-- `RobotsHandler.load`.  `robotsFetch` returning `none` models the
`requests.get` exception; the surrounding `except` then sets `allow_all`,
as does an exception from `urlparse` on the base URL. -/
def RobotsHandler.load (h : RobotsHandler) (env : RobotsEnv) : RobotsHandler :=
  match urlparseE h.base_url with
  | .error _ => {h with loaded := true, allow_all := true}
  | .ok parsed =>
    let robots_url := parsed.scheme ++ "://" ++ parsed.netloc ++ "/robots.txt"
    match env.robotsFetch robots_url with
    | none => {h with loaded := true, allow_all := true}
    | some resp =>
      if resp.status = 200 then
        let content := pyStrip resp.text
        if looksNonRobots content then {h with loaded := true, allow_all := true}
        else
          let h := {h with parserRules := some (env.parseRules (pySplitlines content)),
                           loaded := true}
          (pySplitlines content).foldl (robotsLineStep env) h
      else {h with loaded := true, allow_all := true}

/-- The post-load part of `RobotsHandler.can_fetch`: allow everything when
no valid robots.txt was obtained, else consult the parser.  A never-parsed
`RobotFileParser` answers `False` (its `last_checked` is unset);
exceptions inside the external matcher are not modelled (the source maps
them to `True`). -/
def canFetchLoaded (h : RobotsHandler) (url : String) : Bool :=
  if h.allow_all then true
  else
    match h.parserRules with
    | none => false
    | some f => f h.user_agent url

/-- `RobotsHandler.can_fetch`: lazily load robots.txt, then decide. -/
def RobotsHandler.can_fetch (h0 : RobotsHandler) (env : RobotsEnv) (url : String) : Bool :=
  canFetchLoaded (if ¬ h0.loaded then h0.load env else h0) url

/-! ## `WebsiteDownloader` state and environment -/

/-- One record of the incremental store (`state_data[url]`).  Fields are
`Option` because the response headers they are copied from may be absent. -/
structure StateEntry where
  etag : Option String
  last_modified : Option String
  content_type : Option String
  local_path : Option String
  timestamp : String
deriving Repr, DecidableEq

/-- An HTTP request issued by the engine: target URL and the extra headers
passed to `session.get` (the conditional headers; `[]` means an
unconditional request).  Request traces make "fetched at most once"
statements observable. -/
abbrev Request := String × List (String × String)

structure HResponse where
  status : Nat
  headers : List (String × String)
  body : List Nat

/-- The run's oracles: `fetch url extra` is the response `session.get`
produces (`none` models a transport exception); `hrefsOf` gives the anchor
`href` values BeautifulSoup finds in a body; `serialize` is the
`soup.prettify()` output written for a page; `now` is the UTC timestamp. -/
structure Env where
  fetch : String → List (String × String) → Option HResponse
  hrefsOf : List Nat → List String
  serialize : List Nat → List Nat
  now : String

/-- The mutable state of a `WebsiteDownloader` run, plus the constants set
in `__init__` (`base_url`, `domain`, `output_dir`) and the process working
directory `cwd` that `os.path.relpath` resolves against.  `fs` is the
file system: the set of files on disk, newest write first. -/
structure Downloader where
  base_url : String
  domain : String
  output_dir : String
  cwd : String
  visited_urls : List String
  downloaded_assets : List (String × String)
  pages_to_visit : List String
  incremental : Bool
  state_data : List (String × StateEntry)
  asset_filter : AssetFilter
  fs : List (String × List Nat)

/-- `requests` response headers are case-insensitive. -/
def headerGet (hs : List (String × String)) (k : String) : Option String :=
  (hs.find? (fun p => pyLower p.1 == pyLower k)).map (fun p => p.2)

/-- `os.path.exists` against the modelled file system. -/
def pathExists (fs : List (String × List Nat)) (p : String) : Bool :=
  fs.any (fun f => f.1 == p)

/-- `WebsiteDownloader._get_conditional_headers`. -/
def getConditionalHeaders (d : Downloader) (url : String) : List (String × String) :=
  if ¬ d.incremental then []
  else
    match List.lookup url d.state_data with
    | none => []
    | some e =>
      (match e.etag with
       | some t => if t ≠ "" then [("If-None-Match", t)] else []
       | none => []) ++
      (match e.last_modified with
       | some m => if m ≠ "" then [("If-Modified-Since", m)] else []
       | none => [])

/-- The metadata record built by `WebsiteDownloader._update_state`. -/
def mkStateEntry (r : HResponse) (local_path now : String) : StateEntry :=
  ⟨headerGet r.headers "ETag", headerGet r.headers "Last-Modified",
   headerGet r.headers "Content-Type", some local_path, now⟩

/-- `WebsiteDownloader.is_same_domain`. -/
def is_same_domain (d : Downloader) (url : String) : Except String Bool :=
  match urlparseE url with
  | .error e => .error e
  | .ok p => .ok (p.netloc == "" || p.netloc == d.domain)

/-- `WebsiteDownloader.normalize_url`: protocol-relative URLs get an
`https:` prefix, the reference is joined against the current URL, and the
fragment is stripped from the parse of the result. -/
def normalize_url (url current_url : String) : Except String String :=
  match urljoinE current_url (if startsWithS url "//" then "https:" ++ url else url) with
  | .error e => .error e
  | .ok full_url =>
    match urlparseE full_url with
    | .error e => .error e
    | .ok p => .ok (urlunparse {p with fragment := ""})

/-- `WebsiteDownloader.get_asset_category`; `content_type = ""` models a
falsy content type (`None` or empty). -/
def get_asset_category (url : String) (content_type : String) : Except String String :=
  match urlparseE url with
  | .error e => .error e
  | .ok parsed =>
    let ext := pyLower (pySplitext parsed.path).2
    match ASSET_CATEGORY_MAP.find? (fun ce => ce.2.contains ext) with
    | some ce => .ok ce.1
    | none =>
      if content_type ≠ "" then
        let ct := pyLower content_type
        if containsS ct "text/css" then .ok "css"
        else if containsS ct "javascript" then .ok "js"
        else if containsS ct "image/" then .ok "image"
        else if containsS ct "font/" then .ok "font"
        else if containsS ct "audio/" || containsS ct "video/" then .ok "media"
        else .ok "other"
      else .ok "other"

/-- `WebsiteDownloader.get_local_path_for_nextjs_image`; returns `none`
(Python `None`) when the query carries no `url` parameter.  The `q` quality
parameter is read by the source but never used. -/
def get_local_path_for_nextjs_image (d : Downloader) (url : String) :
    Except String (Option String) :=
  match urlparseE url with
  | .error e => .error e
  | .ok parsed =>
    let query := pyParseQs parsed.query
    match List.lookup "url" query with
    | some (v0 :: _) =>
      let original_url := pyUnquote v0
      let width := match List.lookup "w" query with | some (w0 :: _) => w0 | _ => ""
      let path := lstripSlashes original_url
      let ne := pySplitext path
      let path := if width ≠ "" then ne.1 ++ "_w" ++ width ++ ne.2 else path
      .ok (some (pyJoin d.output_dir path))
    | _ => .ok none

/-- `WebsiteDownloader.get_local_path` (the unused `is_asset` keyword is
dropped). -/
def get_local_path (d : Downloader) (url : String) : Except String (Option String) :=
  match urlparseE url with
  | .error e => .error e
  | .ok parsed =>
    let path := pyUnquote parsed.path
    if containsS path "/_next/image" then get_local_path_for_nextjs_image d url
    else
      let path :=
        if path = "" ∨ path = "/" then "/index.html"
        else if (pySplitext path).2 = "" then
          (if endsWithS path "/" then path ++ "index.html" else path ++ ".html")
        else path
      .ok (some (pyJoin d.output_dir (lstripSlashes path)))

/-- `WebsiteDownloader.get_relative_path_from_cache` (the
`.replace("\\", "/")` step is the identity on posix paths). -/
def get_relative_path_from_cache (d : Downloader) (asset_url page_url : String) :
    Except String String :=
  match List.lookup asset_url d.downloaded_assets with
  | none => .ok asset_url
  | some asset_path =>
    if asset_path = "" then .ok asset_url
    else
      match get_local_path d page_url with
      | .error e => .error e
      | .ok none => .ok asset_url
      | .ok (some page_path) =>
        .ok (pyRelpath d.cwd asset_path (pyDirname page_path))

/-! ## `download_file` and the asset task -/

/-- Result of `download_file`: the successor state, the `(success,
content_type, from_cache)` triple the method returns, and the trace of HTTP
requests it issued.  `content_type` is `Option` because the 304 cache hit
returns a possibly-`None` stored value. -/
structure DfOut where
  d : Downloader
  success : Bool
  content_type : Option String
  from_cache : Bool
  requests : List Request

/-- The state written by the success tail of `download_file`: the file
write (modelled as always succeeding), the `_update_state` upsert (only in
incremental mode), and — for assets — the registry insert. -/
def dfWriteState (env : Env) (d : Downloader) (url local_path category : String)
    (r : HResponse) : Downloader :=
  if category ≠ "page" then
    if d.incremental then
      {d with fs := (local_path, r.body) :: d.fs,
              state_data := (url, mkStateEntry r local_path env.now) :: d.state_data,
              downloaded_assets := (url, local_path) :: d.downloaded_assets}
    else
      {d with fs := (local_path, r.body) :: d.fs,
              downloaded_assets := (url, local_path) :: d.downloaded_assets}
  else
    if d.incremental then
      {d with fs := (local_path, r.body) :: d.fs,
              state_data := (url, mkStateEntry r local_path env.now) :: d.state_data}
    else
      {d with fs := (local_path, r.body) :: d.fs}

/-- The tail of `download_file` handling a usable response: content-type
and category lookup, filter and size admission, then `dfWriteState`.  The
recon scanner and WARC recorder touched on the success path are excluded
collaborators with no modelled state. -/
def downloadBody (env : Env) (d : Downloader) (url local_path category : String)
    (r : HResponse) (reqs : List Request) : DfOut :=
  match (if category = "page" then Except.ok "page"
         else get_asset_category url ((headerGet r.headers "content-type").getD "")) with
  | .error _ => ⟨d, false, some "", false, reqs⟩
  | .ok category_name =>
    if category ≠ "page" ∧ ¬ d.asset_filter.allows url category_name then
      ⟨d, false, some ((headerGet r.headers "content-type").getD ""), false, reqs⟩
    else if category ≠ "page" ∧ ¬ d.asset_filter.allows_size (some r.body.length) then
      ⟨d, false, some ((headerGet r.headers "content-type").getD ""), false, reqs⟩
    else
      ⟨dfWriteState env d url local_path category r, true,
       some ((headerGet r.headers "content-type").getD ""), false, reqs⟩

/-- The unconditional refetch `download_file` performs when a 304 arrives
but the recorded local file is missing: a second GET with no conditional
headers, then `raise_for_status` and the normal body handling. -/
def df304refetch (env : Env) (d : Downloader) (url local_path category : String) : DfOut :=
  match env.fetch url [] with
  | none => ⟨d, false, some "", false, [(url, getConditionalHeaders d url), (url, [])]⟩
  | some r2 =>
    if 400 ≤ r2.status ∧ r2.status < 600 then
      ⟨d, false, some "", false, [(url, getConditionalHeaders d url), (url, [])]⟩
    else downloadBody env d url local_path category r2
           [(url, getConditionalHeaders d url), (url, [])]

/-- The 304 branch of `download_file`: when the incremental entry records a
non-empty local path that still exists on disk, register it and report a
cache hit; otherwise fall back to `df304refetch`. -/
def df304 (env : Env) (d : Downloader) (url local_path category : String) : DfOut :=
  match (List.lookup url d.state_data).bind (fun e => e.local_path) with
  | some cached =>
    if cached ≠ "" ∧ pathExists d.fs cached then
      ⟨{d with downloaded_assets := (url, cached) :: d.downloaded_assets}, true,
       (List.lookup url d.state_data).bind (fun e => e.content_type), true,
       [(url, getConditionalHeaders d url)]⟩
    else df304refetch env d url local_path category
  | none => df304refetch env d url local_path category

/-- `WebsiteDownloader.download_file`: conditional GET, 304 resolution with
the missing-file unconditional-refetch fallback, `raise_for_status` (4xx
and 5xx raise, caught by the method's `except` clause, which returns a
failure triple), then `downloadBody`. -/
def download_file (env : Env) (d : Downloader) (url local_path category : String) : DfOut :=
  match env.fetch url (getConditionalHeaders d url) with
  | none => ⟨d, false, some "", false, [(url, getConditionalHeaders d url)]⟩
  | some r =>
    if r.status = 304 then df304 env d url local_path category
    else if 400 ≤ r.status ∧ r.status < 600 then
      ⟨d, false, some "", false, [(url, getConditionalHeaders d url)]⟩
    else downloadBody env d url local_path category r [(url, getConditionalHeaders d url)]

/-- The return step shared by the task paths that consult the registry:
`get_relative_path_from_cache` wrapped around the final state and request
trace. -/
def taskFinish (d2 : Downloader) (full_url current_page_url : String)
    (reqs : List Request) : Except String (String × Downloader × List Request) :=
  match get_relative_path_from_cache d2 full_url current_page_url with
  | .error e => .error e
  | .ok rel => .ok (rel, d2, reqs)

/-- The fetch step of the asset task: run `download_file` and, on success,
repeat the registry insert the source performs at lines 850-851. -/
def taskDownload (env : Env) (d : Downloader) (full_url local_path : String) :
    Downloader × List Request :=
  match download_file env d full_url local_path "asset" with
  | ⟨d1, true, _, _, reqs⟩ =>
    ({d1 with downloaded_assets := (full_url, local_path) :: d1.downloaded_assets}, reqs)
  | ⟨d1, false, _, _, reqs⟩ => (d1, reqs)

/-- `WebsiteDownloader._download_asset_task` (the body a worker runs).  The
recursive CSS expansion (`process_css_file`), which runs only after a
successful `.css` download, is outside the scope of the claims and not
modelled. -/
def downloadAssetTask (env : Env) (d : Downloader) (url current_page_url : String) :
    Except String (String × Downloader × List Request) :=
  if url = "" ∨ startsWithS url "data:" then .ok (url, d, [])
  else
    match normalize_url url current_page_url with
    | .error e => .error e
    | .ok full_url =>
      match is_same_domain d full_url with
      | .error e => .error e
      | .ok sd =>
        if ¬ sd then .ok (url, d, [])
        else if (List.lookup full_url d.downloaded_assets).isSome then
          taskFinish d full_url current_page_url []
        else
          match get_local_path d full_url with
          | .error e => .error e
          | .ok none => .ok (url, d, [])
          | .ok (some local_path) =>
            taskFinish (taskDownload env d full_url local_path).1 full_url
              current_page_url (taskDownload env d full_url local_path).2

/-! ## `process_page`: canonical URLs, link extraction, frontier -/

/-- The href guard shared by `extract_links` and the anchor-rewrite loop. -/
def skipHref (href : String) : Bool :=
  startsWithS href "#" || startsWithS href "javascript:" ||
  startsWithS href "mailto:" || startsWithS href "tel:"

/-- The canonical ("compare") form of a page URL in `process_page`: the URL
is parsed first, then the query is stripped unless `/_next/image` occurs in
the URL string. -/
def pageCanon (url : String) : Except String String :=
  match urlparseE url with
  | .error e => .error e
  | .ok parsed =>
    if ¬ containsS url "/_next/image" then .ok (urlunparse {parsed with query := ""})
    else .ok url

/-- The link-cleaning step of `extract_links` (parses only in the
query-stripping branch, unlike `pageCanon`). -/
def linkClean (full_url : String) : Except String String :=
  if ¬ containsS full_url "/_next/image" then
    match urlparseE full_url with
    | .error e => .error e
    | .ok parsed => .ok (urlunparse {parsed with query := ""})
  else .ok full_url

/-- `WebsiteDownloader.extract_links` over the page's anchor href values
(`soup.find_all("a", href=True)`).  The Python `set` is modelled as a
deduplicated list; its iteration order is unspecified and only membership
is relied upon. -/
def extract_links (d : Downloader) (hrefs : List String) (current_url : String) :
    Except String (List String) :=
  hrefs.foldl (fun acc href =>
    match acc with
    | .error e => .error e
    | .ok links =>
      if skipHref href then .ok links
      else
        match normalize_url href current_url with
        | .error e => .error e
        | .ok full_url =>
          match is_same_domain d full_url with
          | .error e => .error e
          | .ok sd =>
            if sd then
              match linkClean full_url with
              | .error e => .error e
              | .ok c => .ok (if links.contains c then links else links ++ [c])
            else .ok links) (.ok [])

/-- The frontier-enqueue loop of `process_page`: each discovered link whose
canonical form is not in the visited set is appended to `pages_to_visit` —
with no membership test against the queue itself.  Returns `false` when a
link raised mid-loop (the partial enqueues performed so far are kept). -/
def enqueueLinks : Downloader → List String → Downloader × Bool
  | d, [] => (d, true)
  | d, l :: ls =>
    match pageCanon l with
    | .error _ => (d, false)
    | .ok cl =>
      enqueueLinks (if cl ∈ d.visited_urls then d
        else {d with pages_to_visit := d.pages_to_visit ++ [l]}) ls

/-- Whether the anchor-rewrite loop of `process_page` completes without an
exception (each same-origin href normalizes and both `get_local_path`
calls succeed); the rewrite itself mutates only the parse tree. -/
def anchorsOk (d : Downloader) (hrefs : List String) (url : String) : Bool :=
  hrefs.all (fun href =>
    if skipHref href then true
    else
      match normalize_url href url with
      | .error _ => false
      | .ok full_url =>
        match is_same_domain d full_url with
        | .error _ => false
        | .ok sd =>
          if sd then
            match get_local_path d full_url, get_local_path d url with
            | .ok _, .ok _ => true
            | _, _ => false
          else true)

/-- The persist step at the tail of `process_page`: the serialized document
is written (and the incremental entry recorded) only when `get_local_path`
produced a truthy path; a `None` or empty path skips the write.  Exceptions
from `get_local_path` abort the page (caught by the method's `except`). -/
def persistPage (env : Env) (d : Downloader) (url : String) (r : HResponse) : Downloader :=
  match get_local_path d url with
  | .error _ => d
  | .ok none => d
  | .ok (some local_path) =>
    if local_path ≠ "" then
      if d.incremental then
        {d with fs := (local_path, env.serialize r.body) :: d.fs,
                state_data := (url, mkStateEntry r local_path env.now) :: d.state_data}
      else {d with fs := (local_path, env.serialize r.body) :: d.fs}
    else d

/-- The body of `process_page` after the visited-set guard: page fetch, 304
skip, `raise_for_status`, HTML check, link extraction, frontier enqueue,
anchor rewriting, page persist.  Every exception inside the body is caught
by the method's `except` clause, so the body is total and keeps the state
reached before the exception.  The DOM rewriting passes and the per-page
asset dispatch mutate the parse tree and are modelled separately
(`downloadAssetTask`); the recon scanner, archive recorder and progress
display are excluded collaborators. -/
def processPageBody (env : Env) (d : Downloader) (url : String) : Downloader × List Request :=
  match env.fetch url (getConditionalHeaders d url) with
  | none => (d, [(url, getConditionalHeaders d url)])
  | some r =>
    if r.status = 304 then (d, [(url, getConditionalHeaders d url)])
    else if 400 ≤ r.status ∧ r.status < 600 then (d, [(url, getConditionalHeaders d url)])
    else if ¬ containsS ((headerGet r.headers "content-type").getD "") "text/html" then
      (d, [(url, getConditionalHeaders d url)])
    else
      match extract_links d (env.hrefsOf r.body) url with
      | .error _ => (d, [(url, getConditionalHeaders d url)])
      | .ok links =>
        match enqueueLinks d links with
        | (d2, false) => (d2, [(url, getConditionalHeaders d url)])
        | (d2, true) =>
          if ¬ anchorsOk d2 (env.hrefsOf r.body) url then
            (d2, [(url, getConditionalHeaders d url)])
          else (persistPage env d2 url r, [(url, getConditionalHeaders d url)])

/-- `WebsiteDownloader.process_page`: the canonical URL is computed and the
visited set consulted and extended *before* any fetch (source lines
1000-1010); an already-visited canonical URL returns immediately.  The
returned list is the trace of page HTTP requests issued. -/
def processPage (env : Env) (d : Downloader) (url : String) :
    Except String (Downloader × List Request) :=
  match pageCanon url with
  | .error e => .error e
  | .ok compare_url =>
    if compare_url ∈ d.visited_urls then .ok (d, [])
    else .ok (processPageBody env {d with visited_urls := compare_url :: d.visited_urls} url)

/-! ## Specification-side definition (for the refinement claim on
`AssetFilter.allows`) -/

/-- The admission predicate as worded in spec §4.3, written independently
of `AssetFilter.allows` for comparison. -/
def admitsSpec (f : AssetFilter) (url : String) (category : String) : Bool :=
  let cat := pyLower (if category = "" then "other" else category)
  (f.include_types.isEmpty || f.include_types.contains cat) &&
  (!f.exclude_types.contains cat) &&
  (!f.exclude_patterns.any (fun p => p url)) &&
  (f.include_patterns.isEmpty || f.include_patterns.any (fun p => p url))

/-! ## Helper lemmas: characters and splitting -/

theorem charLe_toNat {a b : Char} (h : a ≤ b) : a.toNat ≤ b.toNat := by
  simpa [Char.le_def, UInt32.le_def, BitVec.le_def, Char.toNat, UInt32.toNat] using h

theorem asciiLower_hash {c : Char} (h : asciiLower c = '#') : c = '#' := by
  by_cases hu : 'A' ≤ c ∧ c ≤ 'Z'
  · exfalso
    have hA : (65 : Nat) ≤ c.toNat := by simpa using charLe_toNat hu.1
    have hZ : c.toNat ≤ 90 := charLe_toNat hu.2
    have hv : Char.isValidCharNat (c.toNat + 32) := Or.inl (by omega)
    have hn : (Char.ofNat (c.toNat + 32)).toNat = c.toNat + 32 := by
      rw [Char.ofNat, dif_pos hv]; rfl
    unfold asciiLower at h
    rw [if_pos hu] at h
    rw [h] at hn
    have h35 : ('#').toNat = 35 := by decide
    omega
  · unfold asciiLower at h
    rwa [if_neg hu] at h

theorem isSchemeChar_ne_hash {c : Char} (h : isSchemeChar c = true) : c ≠ '#' := by
  intro hc; subst hc; exact absurd h (by decide)

theorem isAlpha_ne_hash {c : Char} (h : c.isAlpha = true) : c ≠ '#' := by
  intro hc; subst hc; exact absurd h (by decide)

/-- Structure of `splitOnceAux`: on success the input is the two pieces
around the first separator, and the first piece is separator-free; on
failure the separator does not occur. -/
theorem splitOnceAux_spec (sep : Char) (l : List Char) :
    match splitOnceAux sep l with
    | none => sep ∉ l
    | some (a, b) => l = a ++ sep :: b ∧ sep ∉ a := by
  induction l with
  | nil => simp [splitOnceAux]
  | cons c rest ih =>
    simp only [splitOnceAux]
    by_cases hc : c = sep
    · subst hc; simp
    · rw [if_neg hc]
      cases hr : splitOnceAux sep rest with
      | none =>
        rw [hr] at ih
        simp only [Option.map_none']
        intro h
        rcases List.mem_cons.mp h with h | h
        · exact hc h.symm
        · exact ih h
      | some p =>
        obtain ⟨a, b⟩ := p
        rw [hr] at ih
        simp only [Option.map_some']
        refine ⟨by simp [ih.1], ?_⟩
        intro h
        rcases List.mem_cons.mp h with h | h
        · exact hc h.symm
        · exact ih.2 h

theorem splitOnceD_fst_ne (sep : Char) (l : List Char) :
    ∀ c ∈ (splitOnceD sep l).1, c ≠ sep := by
  have h := splitOnceAux_spec sep l
  unfold splitOnceD
  cases hr : splitOnceAux sep l with
  | none =>
    rw [hr] at h
    intro c hc hceq; subst hceq; exact h hc
  | some p =>
    obtain ⟨a, b⟩ := p
    rw [hr] at h
    intro c hc hceq; subst hceq; exact h.2 hc

theorem splitOnceD_fst_subset (sep : Char) (l : List Char) :
    ∀ c ∈ (splitOnceD sep l).1, c ∈ l := by
  have h := splitOnceAux_spec sep l
  unfold splitOnceD
  cases hr : splitOnceAux sep l with
  | none => intro c hc; exact hc
  | some p =>
    obtain ⟨a, b⟩ := p
    rw [hr] at h
    intro c hc
    rw [h.1]
    exact List.mem_append.mpr (Or.inl hc)

theorem splitOnceD_snd_subset (sep : Char) (l : List Char) :
    ∀ c ∈ (splitOnceD sep l).2, c ∈ l := by
  have h := splitOnceAux_spec sep l
  unfold splitOnceD
  cases hr : splitOnceAux sep l with
  | none => intro c hc; simp at hc
  | some p =>
    obtain ⟨a, b⟩ := p
    rw [hr] at h
    intro c hc
    rw [h.1]
    exact List.mem_append.mpr (Or.inr (List.mem_cons_of_mem _ hc))

theorem schemeSplit_no_hash (scheme0 : String) (l : List Char)
    (hs : ∀ c ∈ scheme0.data, c ≠ '#') :
    ∀ c ∈ (schemeSplit scheme0 l).1.data, c ≠ '#' := by
  unfold schemeSplit
  split
  · rename_i i hf
    split
    · rename_i hcond
      intro c hc habs
      subst habs
      obtain ⟨c0, hc0, hmap⟩ := List.mem_map.mp hc
      have hc0hash : c0 = '#' := asciiLower_hash hmap
      subst hc0hash
      cases l with
      | nil => simp [findCh, idxOfAux] at hf
      | cons x rest =>
        obtain ⟨j, hj⟩ : ∃ j, i = j + 1 := ⟨i - 1, by omega⟩
        rw [hj, List.take_succ_cons] at hc0
        rcases List.mem_cons.mp hc0 with h | h
        · have hx : x.isAlpha = true := by simpa using hcond.2.1
          exact isAlpha_ne_hash hx h.symm
        · have hall := hcond.2.2
          rw [hj, List.take_succ_cons, List.drop_succ_cons, List.drop_zero] at hall
          exact isSchemeChar_ne_hash (List.all_eq_true.mp hall _ h) rfl
    · exact hs
  · exact hs

theorem netlocSplit_no_hash (l : List Char) :
    ∀ c ∈ (netlocSplit l).1, c ≠ '#' := by
  unfold netlocSplit
  split
  · intro c hc habs
    subst habs
    have := List.mem_takeWhile_imp hc
    simp at this
  · simp

theorem urlsplitAfterNetloc_no_hash {scheme : String} {netloc rest : List Char}
    {r : SplitResult}
    (hs : ∀ c ∈ scheme.data, c ≠ '#') (hn : ∀ c ∈ netloc, c ≠ '#')
    (h : urlsplitAfterNetloc scheme netloc rest = .ok r) :
    (∀ c ∈ r.scheme.data, c ≠ '#') ∧ (∀ c ∈ r.netloc.data, c ≠ '#') ∧
    (∀ c ∈ r.path.data, c ≠ '#') ∧ (∀ c ∈ r.query.data, c ≠ '#') := by
  unfold urlsplitAfterNetloc at h
  split at h
  · exact absurd h (by simp)
  · injection h with h
    subst h
    refine ⟨hs, hn, ?_, ?_⟩
    · intro c hc
      exact splitOnceD_fst_ne '#' _ c (splitOnceD_fst_subset '?' _ c hc)
    · intro c hc
      exact splitOnceD_fst_ne '#' _ c (splitOnceD_snd_subset '?' _ c hc)

theorem urlsplitE_no_hash {url0 scheme0 : String} {r : SplitResult}
    (hs : ∀ c ∈ scheme0.data, c ≠ '#')
    (h : urlsplitE url0 scheme0 = .ok r) :
    (∀ c ∈ r.scheme.data, c ≠ '#') ∧ (∀ c ∈ r.netloc.data, c ≠ '#') ∧
    (∀ c ∈ r.path.data, c ≠ '#') ∧ (∀ c ∈ r.query.data, c ≠ '#') := by
  unfold urlsplitE at h
  exact urlsplitAfterNetloc_no_hash (schemeSplit_no_hash scheme0 _ hs)
    (netlocSplit_no_hash _) h

theorem urlparseWithE_no_hash {url0 scheme0 : String} {p : ParseResult}
    (hs : ∀ c ∈ scheme0.data, c ≠ '#')
    (h : urlparseWithE url0 scheme0 = .ok p) :
    (∀ c ∈ p.scheme.data, c ≠ '#') ∧ (∀ c ∈ p.netloc.data, c ≠ '#') ∧
    (∀ c ∈ p.path.data, c ≠ '#') ∧ (∀ c ∈ p.params.data, c ≠ '#') ∧
    (∀ c ∈ p.query.data, c ≠ '#') := by
  unfold urlparseWithE at h
  cases hsp : urlsplitE url0 scheme0 with
  | error e =>
    simp only [hsp] at h
    exact absurd h (by simp)
  | ok s =>
    simp only [hsp] at h
    obtain ⟨h1, h2, h3, h4⟩ := urlsplitE_no_hash hs hsp
    split at h
    · injection h with h
      subst h
      refine ⟨h1, h2, ?_, ?_, h4⟩
      · intro c hc
        simp only at hc
        unfold splitparams at hc
        cases hio : paramsIdx s.path.data with
        | some i =>
          rw [hio] at hc
          simp only at hc
          exact h3 c (List.take_subset _ _ hc)
        | none =>
          rw [hio] at hc
          exact h3 c hc
      · intro c hc
        simp only at hc
        unfold splitparams at hc
        cases hio : paramsIdx s.path.data with
        | some i =>
          rw [hio] at hc
          simp only at hc
          exact h3 c (List.drop_subset _ _ hc)
        | none =>
          rw [hio] at hc
          simp at hc
    · injection h with h
      subst h
      exact ⟨h1, h2, h3, by simp, h4⟩

theorem append_no_hash {s t : String} (h1 : ∀ c ∈ s.data, c ≠ '#')
    (h2 : ∀ c ∈ t.data, c ≠ '#') : ∀ c ∈ (s ++ t).data, c ≠ '#' := by
  intro c hc
  rw [String.data_append] at hc
  rcases List.mem_append.mp hc with h | h
  · exact h1 c h
  · exact h2 c h

theorem urlunsplit_no_hash {s : SplitResult}
    (h1 : ∀ c ∈ s.scheme.data, c ≠ '#') (h2 : ∀ c ∈ s.netloc.data, c ≠ '#')
    (h3 : ∀ c ∈ s.path.data, c ≠ '#') (h4 : ∀ c ∈ s.query.data, c ≠ '#')
    (hf : s.fragment = "") : ∀ c ∈ (urlunsplit s).data, c ≠ '#' := by
  unfold urlunsplit
  rw [hf]
  simp only [ne_eq, not_true_eq_false, if_false]
  have lit1 : ∀ c ∈ ("//" : String).data, c ≠ '#' := by decide
  have lit2 : ∀ c ∈ ("/" : String).data, c ≠ '#' := by decide
  have lit3 : ∀ c ∈ (":" : String).data, c ≠ '#' := by decide
  have lit4 : ∀ c ∈ ("?" : String).data, c ≠ '#' := by decide
  have hu1 : ∀ c ∈ (if s.netloc ≠ "" ∨ (s.path ≠ "" ∧ startsWithS s.path "//") then
      "//" ++ s.netloc ++ (if s.path ≠ "" ∧ ¬ startsWithS s.path "/" then "/" ++ s.path
        else s.path) else s.path).data, c ≠ '#' := by
    split
    · refine append_no_hash (append_no_hash lit1 h2) ?_
      split
      · exact append_no_hash lit2 h3
      · exact h3
    · exact h3
  have hu2 : ∀ c ∈ (if s.scheme ≠ "" then s.scheme ++ ":" ++ (if s.netloc ≠ "" ∨
      (s.path ≠ "" ∧ startsWithS s.path "//") then "//" ++ s.netloc ++
      (if s.path ≠ "" ∧ ¬ startsWithS s.path "/" then "/" ++ s.path else s.path)
      else s.path) else (if s.netloc ≠ "" ∨ (s.path ≠ "" ∧ startsWithS s.path "//") then
      "//" ++ s.netloc ++ (if s.path ≠ "" ∧ ¬ startsWithS s.path "/" then "/" ++ s.path
      else s.path) else s.path)).data, c ≠ '#' := by
    split
    · exact append_no_hash (append_no_hash h1 lit3) hu1
    · exact hu1
  split
  · exact append_no_hash (append_no_hash hu2 lit4) h4
  · exact hu2

theorem urlunparse_no_hash {p : ParseResult}
    (h1 : ∀ c ∈ p.scheme.data, c ≠ '#') (h2 : ∀ c ∈ p.netloc.data, c ≠ '#')
    (h3 : ∀ c ∈ p.path.data, c ≠ '#') (h4 : ∀ c ∈ p.params.data, c ≠ '#')
    (h5 : ∀ c ∈ p.query.data, c ≠ '#')
    (hf : p.fragment = "") : ∀ c ∈ (urlunparse p).data, c ≠ '#' := by
  unfold urlunparse
  have lit5 : ∀ c ∈ (";" : String).data, c ≠ '#' := by decide
  refine urlunsplit_no_hash ?_ ?_ ?_ ?_ ?_
  · exact h1
  · exact h2
  · show ∀ c ∈ (if p.params ≠ "" then p.path ++ ";" ++ p.params else p.path).data, c ≠ '#'
    split
    · exact append_no_hash (append_no_hash h3 lit5) h4
    · exact h3
  · exact h5
  · exact hf

/-- Every canonical URL produced by `normalize_url` is free of `#`: the
fragment is stripped. -/
theorem normalize_url_no_hash {url cur res : String}
    (h : normalize_url url cur = .ok res) : res.data.contains '#' = false := by
  unfold normalize_url at h
  cases hj : urljoinE cur (if startsWithS url "//" then "https:" ++ url else url) with
  | error e =>
    simp only [hj] at h
    exact absurd h (by simp)
  | ok full =>
    simp only [hj] at h
    cases hp : urlparseE full with
    | error e =>
      simp only [hp] at h
      exact absurd h (by simp)
    | ok p =>
      simp only [hp] at h
      injection h with h
      subst h
      obtain ⟨h1, h2, h3, h4, h5⟩ := urlparseWithE_no_hash (by simp) hp
      have hres := urlunparse_no_hash (p := {p with fragment := ""}) h1 h2 h3 h4 h5 rfl
      cases hcon : (urlunparse {p with fragment := ""}).data.contains '#' with
      | false => rfl
      | true =>
        have hmem : ('#') ∈ (urlunparse {p with fragment := ""}).data :=
          List.mem_of_elem_eq_true (by simpa [List.contains] using hcon)
        exact absurd rfl (hres '#' hmem)

/-! ## Concrete fixtures (used by witnesses and counterexamples) -/

/-- `AssetFilter()` with no arguments: everything admitted. -/
def noFilter : AssetFilter := mkAssetFilter [] [] [] [] none none

/-- A fresh downloader for `https://x.test` writing under `site`, as
`__init__` leaves it (empty registries, incremental mode on). -/
def d0 : Downloader :=
  ⟨"https://x.test", "x.test", "site", "/w", [], [], [], true, [], noFilter, []⟩

/-! ## Claim C8 -/

/-- C8 counterexample: on the unparsable input `http://[` (unbalanced
bracket in the authority), `normalize_url` does not return the original
string unchanged — it propagates the `ValueError` raised by `urlparse`
inside `urljoin`. -/
theorem C8_counterexample :
    normalize_url "http://[" "https://x.test/" = .error "Invalid IPv6 URL" := by rfl

/-- C8 (amended): `normalize_url` resolves relative and protocol-relative
references against the base and strips the fragment — every successful
result is free of `#` — but it performs no error handling of its own: on
unparsable input (an authority with unbalanced square brackets) it
propagates the `ValueError` to the caller instead of returning the
original string. -/
theorem C8_normalize_amended :
    (∀ url cur res, normalize_url url cur = .ok res →
      res.data.contains '#' = false) ∧
    normalize_url "img/a.png#frag" "https://x.test/d/page.html" =
      .ok "https://x.test/d/img/a.png" ∧
    normalize_url "//cdn.x.test/lib.js" "https://x.test/a.html" =
      .ok "https://cdn.x.test/lib.js" ∧
    normalize_url "http://[" "https://x.test/" = .error "Invalid IPv6 URL" :=
  ⟨fun _ _ _ h => normalize_url_no_hash h, by rfl, by rfl, by rfl⟩

theorem C8_witness :
    ("https://x.test/a.html" : String).data.contains '#' = false :=
  C8_normalize_amended.1 "/a.html#top" "https://x.test/" "https://x.test/a.html" (by rfl)

/-! ## Claim C6 -/

/-- C6: `AssetFilter.allows` admits a `(url, category)` pair exactly when
all of the spec's conditions hold — the include-type allowlist is empty or
holds the lowercased category, the category is not in the exclude set, no
exclude pattern matches the URL, and the include-pattern list is empty or
some include pattern matches — i.e. it coincides with the predicate worded
by the spec (`admitsSpec`), whose conjuncts mirror that rejection order. -/
theorem C6_allows_eq_admitsSpec (f : AssetFilter) (url category : String) :
    f.allows url category = admitsSpec f url category := by
  unfold AssetFilter.allows admitsSpec
  cases hi : f.include_types.isEmpty <;>
  cases hc : f.include_types.contains (pyLower (if category = "" then "other" else category)) <;>
  cases he : f.exclude_types.contains (pyLower (if category = "" then "other" else category)) <;>
  cases hx : f.exclude_patterns.any (fun p => p url) <;>
  cases hp : f.include_patterns.isEmpty <;>
  simp [hi, hc, he, hx, hp, List.isEmpty_iff, Bool.and_assoc]

/-! ## Claim C9 -/

/-- `get_local_path` reads no downloader state except `output_dir`. -/
theorem glp_outputDir_congr (d1 d2 : Downloader) (url : String)
    (h : d1.output_dir = d2.output_dir) :
    get_local_path d1 url = get_local_path d2 url := by
  unfold get_local_path get_local_path_for_nextjs_image
  cases urlparseE url <;> simp [h]

/-- C9: `get_local_path` is a pure, deterministic function of its URL
argument and the output root: any two downloader states that agree on
`output_dir` — whatever their visited sets, asset registries, incremental
stores or file systems, and in whatever order calls occur — map every URL
to the same local path. -/
theorem C9_get_local_path_pure (d1 d2 : Downloader) (url : String)
    (h : d1.output_dir = d2.output_dir) :
    get_local_path d1 url = get_local_path d2 url :=
  glp_outputDir_congr d1 d2 url h

/-- A downloader mid-run: same output root as `d0`, different visited set,
registry, store and file system. -/
def d9 : Downloader :=
  ⟨"https://x.test", "x.test", "site", "/w",
   ["https://x.test/a.html"], [("https://x.test/s.css", "site/s.css")],
   ["https://x.test/b.html"], true,
   [("https://x.test/a.html",
     ⟨some "W1", none, some "text/html", some "site/a.html", "t0"⟩)],
   noFilter, [("site/a.html", [60, 62])]⟩

theorem C9_witness :
    get_local_path d9 "https://x.test/p/q.png" = get_local_path d0 "https://x.test/p/q.png" :=
  C9_get_local_path_pure d9 d0 "https://x.test/p/q.png" (by rfl)

/-! ## Claim C5 -/

/-- C5: `get_local_path` maps, for every URL and output root: an empty or
`/` path to `outputRoot/index.html`; an extensionless path ending in `/` to
that directory's `index.html`; an extensionless path without a trailing
slash to the path with `.html` appended; a path with an extension to the
same path preserved under the output root; and a `/_next/image` transform
URL carrying a `url` query parameter to the local path of the original
asset, suffixed `_w<width>` before the extension exactly when a `w`
parameter is present. -/
theorem C5_get_local_path_mapping :
    (∀ (d : Downloader) (url : String) (parsed : ParseResult),
      urlparseE url = .ok parsed →
      containsS (pyUnquote parsed.path) "/_next/image" = false →
      ((pyUnquote parsed.path = "" ∨ pyUnquote parsed.path = "/") →
        get_local_path d url = .ok (some (pyJoin d.output_dir "index.html"))) ∧
      (pyUnquote parsed.path ≠ "" → pyUnquote parsed.path ≠ "/" →
        (pySplitext (pyUnquote parsed.path)).2 = "" →
        endsWithS (pyUnquote parsed.path) "/" = true →
        get_local_path d url = .ok (some (pyJoin d.output_dir
          (lstripSlashes (pyUnquote parsed.path ++ "index.html"))))) ∧
      (pyUnquote parsed.path ≠ "" → pyUnquote parsed.path ≠ "/" →
        (pySplitext (pyUnquote parsed.path)).2 = "" →
        endsWithS (pyUnquote parsed.path) "/" = false →
        get_local_path d url = .ok (some (pyJoin d.output_dir
          (lstripSlashes (pyUnquote parsed.path ++ ".html"))))) ∧
      ((pySplitext (pyUnquote parsed.path)).2 ≠ "" →
        get_local_path d url = .ok (some (pyJoin d.output_dir
          (lstripSlashes (pyUnquote parsed.path)))))) ∧
    (∀ (d : Downloader) (url : String) (parsed : ParseResult) (v w : String)
        (vs ws : List String),
      urlparseE url = .ok parsed →
      containsS (pyUnquote parsed.path) "/_next/image" = true →
      List.lookup "url" (pyParseQs parsed.query) = some (v :: vs) →
      List.lookup "w" (pyParseQs parsed.query) = some (w :: ws) → w ≠ "" →
      get_local_path d url = .ok (some (pyJoin d.output_dir
        ((pySplitext (lstripSlashes (pyUnquote v))).1 ++ "_w" ++ w ++
         (pySplitext (lstripSlashes (pyUnquote v))).2)))) ∧
    (∀ (d : Downloader) (url : String) (parsed : ParseResult) (v : String)
        (vs : List String),
      urlparseE url = .ok parsed →
      containsS (pyUnquote parsed.path) "/_next/image" = true →
      List.lookup "url" (pyParseQs parsed.query) = some (v :: vs) →
      List.lookup "w" (pyParseQs parsed.query) = none →
      get_local_path d url = .ok (some (pyJoin d.output_dir
        (lstripSlashes (pyUnquote v))))) := by
  refine ⟨?_, ?_, ?_⟩
  · intro d url parsed hparse hsub
    refine ⟨?_, ?_, ?_, ?_⟩
    · intro hor
      unfold get_local_path
      simp only [hparse, hsub]
      rw [if_pos hor]
      rfl
    · intro hne1 hne2 hext hsl
      unfold get_local_path
      simp only [hparse, hsub]
      rw [if_neg (not_or.mpr ⟨hne1, hne2⟩), if_pos hext, if_pos hsl]
      rfl
    · intro hne1 hne2 hext hsl
      unfold get_local_path
      simp only [hparse, hsub]
      rw [if_neg (not_or.mpr ⟨hne1, hne2⟩), if_pos hext]
      simp [hsl]
    · intro hext
      unfold get_local_path
      simp only [hparse, hsub]
      have hne1 : pyUnquote parsed.path ≠ "" := by
        intro h0
        rw [h0] at hext
        exact hext (by rfl)
      have hne2 : pyUnquote parsed.path ≠ "/" := by
        intro h0
        rw [h0] at hext
        exact hext (by rfl)
      rw [if_neg (not_or.mpr ⟨hne1, hne2⟩), if_neg hext]
      rfl
  · intro d url parsed v w vs ws hparse hsub hurl hw hwne
    unfold get_local_path get_local_path_for_nextjs_image
    simp only [hparse, hsub, hurl, hw]
    rw [if_pos hwne]
    rfl
  · intro d url parsed v vs hparse hsub hurl hw
    unfold get_local_path get_local_path_for_nextjs_image
    simp only [hparse, hsub, hurl, hw]
    rfl

theorem C5_witness :
    get_local_path d0 "https://x.test/" = .ok (some "site/index.html") := by
  have h := (C5_get_local_path_mapping.1 d0 "https://x.test/"
    ⟨"https", "x.test", "/", "", "", ""⟩ (by rfl) (by rfl)).1 (Or.inr (by rfl))
  exact h

/-! ## Claim C7 -/

/-- C7: for every robots.txt loading outcome that is not a successful parse
of genuine robots content — the base URL fails to parse, the request
raises, the status is not 200 (e.g. a 404 for an absent robots.txt), or a
200 body that looks like HTML/JSON — `load` sets `allow_all`, and
`can_fetch` subsequently returns `true` for every URL (allow-all, never
deny-all), so the crawl proceeds. -/
theorem C7_robots_default_allow (env : RobotsEnv) (h : RobotsHandler)
    (hng : ∀ parsed, urlparseE h.base_url = .ok parsed →
      ∀ resp, env.robotsFetch (parsed.scheme ++ "://" ++ parsed.netloc ++ "/robots.txt") =
          some resp →
        resp.status ≠ 200 ∨ looksNonRobots (pyStrip resp.text) = true) :
    (h.load env).allow_all = true ∧
    ∀ url, (h.load env).can_fetch env url = true := by
  have key : (h.load env).allow_all = true ∧ (h.load env).loaded = true := by
    cases hp : urlparseE h.base_url with
    | error e => simp [RobotsHandler.load, hp]
    | ok parsed =>
      cases hf : env.robotsFetch (parsed.scheme ++ "://" ++ parsed.netloc ++ "/robots.txt") with
      | none => simp [RobotsHandler.load, hp, hf]
      | some resp =>
        rcases hng parsed hp resp hf with hs | hl
        · simp [RobotsHandler.load, hp, hf, hs]
        · by_cases h200 : resp.status = 200
          · simp [RobotsHandler.load, hp, hf, h200, hl]
          · simp [RobotsHandler.load, hp, hf, h200]
  refine ⟨key.1, fun url => ?_⟩
  unfold RobotsHandler.can_fetch
  rw [key.2]
  simp [canFetchLoaded, key.1]

/-- A 404 robots.txt environment: the parser and float oracles are never
consulted. -/
def rEnv7 : RobotsEnv :=
  ⟨fun u => if u = "https://x.test/robots.txt" then some ⟨404, ""⟩ else none,
   fun _ _ _ => false, fun _ => none⟩

def rh7 : RobotsHandler := mkRobotsHandler "https://x.test" "UA"

theorem C7_witness :
    (rh7.load rEnv7).allow_all = true ∧
    (rh7.load rEnv7).can_fetch rEnv7 "https://x.test/deep/page.html" = true := by
  have h := C7_robots_default_allow rEnv7 rh7 ?hng
  · exact ⟨h.1, h.2 "https://x.test/deep/page.html"⟩
  case hng =>
    intro parsed hp resp hr
    have h0 : urlparseE rh7.base_url = .ok ⟨"https", "x.test", "", "", "", ""⟩ := by rfl
    rw [h0] at hp
    injection hp with h2
    subst h2
    have hr2 : rEnv7.robotsFetch "https://x.test/robots.txt" = some resp := hr
    have h6 : rEnv7.robotsFetch "https://x.test/robots.txt" = some ⟨404, ""⟩ := by rfl
    rw [h6] at hr2
    injection hr2 with h7
    left
    rw [← h7]
    decide

/-! ## `download_file` facts shared by C3 and C4 -/

theorem downloadBody_requests (env : Env) (d : Downloader) (url lp cat : String)
    (r : HResponse) (reqs : List Request) :
    (downloadBody env d url lp cat r reqs).requests = reqs := by
  unfold downloadBody
  split
  · rfl
  · split
    · rfl
    · split
      · rfl
      · rfl

theorem downloadBody_fail (env : Env) (d : Downloader) (url lp cat : String)
    (r : HResponse) (reqs : List Request) :
    (downloadBody env d url lp cat r reqs).success = false →
    (downloadBody env d url lp cat r reqs).d = d := by
  unfold downloadBody
  split
  · intro _; rfl
  · split
    · intro _; rfl
    · split
      · intro _; rfl
      · intro hfalse; simp at hfalse

theorem df304refetch_requests (env : Env) (d : Downloader) (url lp cat : String) :
    (df304refetch env d url lp cat).requests =
      [(url, getConditionalHeaders d url), (url, [])] := by
  unfold df304refetch
  split
  · rfl
  · split
    · rfl
    · exact downloadBody_requests env d url lp cat _ _

theorem df304refetch_fail (env : Env) (d : Downloader) (url lp cat : String) :
    (df304refetch env d url lp cat).success = false →
    (df304refetch env d url lp cat).d = d := by
  unfold df304refetch
  split
  · intro _; rfl
  · split
    · intro _; rfl
    · exact downloadBody_fail env d url lp cat _ _

theorem df304_fail (env : Env) (d : Downloader) (url lp cat : String) :
    (df304 env d url lp cat).success = false →
    (df304 env d url lp cat).d = d := by
  unfold df304
  split
  · split
    · intro hfalse; simp at hfalse
    · exact df304refetch_fail env d url lp cat
  · exact df304refetch_fail env d url lp cat

/-- A failed `download_file` leaves the downloader state — file system,
registry, incremental store — unchanged. -/
theorem download_file_fail (env : Env) (d : Downloader) (url lp cat : String) :
    (download_file env d url lp cat).success = false →
    (download_file env d url lp cat).d = d := by
  unfold download_file
  split
  · intro _; rfl
  · split
    · exact df304_fail env d url lp cat
    · split
      · intro _; rfl
      · exact downloadBody_fail env d url lp cat _ _

/-! ## Claim C4 -/

/-- A page URL with a stale incremental entry: valid ETag, recorded local
file absent from the (empty) file system. -/
def entryC4p : StateEntry :=
  ⟨some "W5", none, some "text/html", some "site/a.html", "t0"⟩

def dC4p : Downloader :=
  ⟨"https://x.test", "x.test", "site", "/w", [], [], [], true,
   [("https://x.test/a.html", entryC4p)], noFilter, []⟩

def envC4p : Env :=
  ⟨fun u _ => if u = "https://x.test/a.html" then some ⟨304, [], []⟩ else none,
   fun _ => [], id, "t0"⟩

/-- C4 counterexample: a page URL with a valid-ETag incremental entry whose
recorded local file (`site/a.html`) does not exist on disk receives a 304 —
and the whole run issues exactly one request, the conditional GET: no
unconditional refetch happens on the page path (`process_page` stops at a
304 without checking the recorded file), contradicting the claim's "for
every URL". -/
theorem C4_counterexample :
    (processPage envC4p dC4p "https://x.test/a.html").map (fun p => p.2) =
      .ok [("https://x.test/a.html", [("If-None-Match", "W5")])] ∧
    pathExists dC4p.fs "site/a.html" = false :=
  ⟨by rfl, by rfl⟩

/-- C4 (amended): for every URL fetched through `download_file` (the asset
path), a 304 answer to the conditional GET is resolved against the
incremental entry's recorded local path: the recorded path is returned
as-is — registered in the asset registry, with success and `from_cache` —
only when that file still exists on disk, and then no second request is
issued; when the recorded file no longer exists, the 304 triggers a
second, unconditional GET (its extra-header set is empty) rather than a
reported success pointing at a nonexistent file.  A page processed by
`process_page`, by contrast, stops at a 304 without consulting the
recorded file: it issues no second request. -/
theorem C4_304_self_heal :
    (∀ (env : Env) (d : Downloader) (url lp cat et : String) (entry : StateEntry)
        (p : String) (r : HResponse),
      List.lookup url d.state_data = some entry →
      entry.etag = some et → et ≠ "" →
      entry.local_path = some p → p ≠ "" →
      env.fetch url (getConditionalHeaders d url) = some r → r.status = 304 →
      pathExists d.fs p = true →
      (download_file env d url lp cat).success = true ∧
      (download_file env d url lp cat).from_cache = true ∧
      (download_file env d url lp cat).requests = [(url, getConditionalHeaders d url)] ∧
      List.lookup url (download_file env d url lp cat).d.downloaded_assets = some p) ∧
    (∀ (env : Env) (d : Downloader) (url lp cat et : String) (entry : StateEntry)
        (p : String) (r : HResponse),
      List.lookup url d.state_data = some entry →
      entry.etag = some et → et ≠ "" →
      entry.local_path = some p → p ≠ "" →
      env.fetch url (getConditionalHeaders d url) = some r → r.status = 304 →
      pathExists d.fs p = false →
      (download_file env d url lp cat).requests =
        [(url, getConditionalHeaders d url), (url, [])]) ∧
    (∀ (env : Env) (d : Downloader) (u c : String) (r : HResponse),
      pageCanon u = .ok c → c ∉ d.visited_urls →
      env.fetch u (getConditionalHeaders d u) = some r → r.status = 304 →
      processPage env d u =
        .ok ({d with visited_urls := c :: d.visited_urls},
             [(u, getConditionalHeaders d u)])) := by
  refine ⟨?_, ?_, ?_⟩
  · intro env d url lp cat et entry p r hentry _ _ hlp hpne hfetch h304 hex
    unfold download_file
    simp only [hfetch]
    rw [if_pos h304]
    unfold df304
    simp only [hentry, Option.some_bind, hlp]
    rw [if_pos ⟨hpne, hex⟩]
    refine ⟨rfl, rfl, rfl, ?_⟩
    simp [List.lookup]
  · intro env d url lp cat et entry p r hentry _ _ hlp hpne hfetch h304 hex
    unfold download_file
    simp only [hfetch]
    rw [if_pos h304]
    unfold df304
    simp only [hentry, Option.some_bind, hlp]
    rw [if_neg (by simp [hex])]
    exact df304refetch_requests env d url lp cat
  · intro env d u c r hc hv hfetch h304
    unfold processPage
    simp only [hc]
    rw [if_neg hv]
    unfold processPageBody
    have hgc : getConditionalHeaders {d with visited_urls := c :: d.visited_urls} u =
        getConditionalHeaders d u := rfl
    rw [hgc]
    simp only [hfetch]
    rw [if_pos h304]

/-- A state mid-run whose incremental entry for the image records a local
file that exists in the modelled file system. -/
def entry4 : StateEntry :=
  ⟨some "W4", none, some "image/png", some "site/img/a.png", "t0"⟩

def d4 : Downloader :=
  ⟨"https://x.test", "x.test", "site", "/w", [], [], [], true,
   [("https://x.test/img/a.png", entry4)], noFilter, [("site/img/a.png", [1, 2])]⟩

def env4 : Env :=
  ⟨fun u _ => if u = "https://x.test/img/a.png" then some ⟨304, [], []⟩ else none,
   fun _ => [], id, "t0"⟩

theorem C4_witness :
    (download_file env4 d4 "https://x.test/img/a.png" "site/img/a.png" "asset").success = true ∧
    (download_file env4 d4 "https://x.test/img/a.png" "site/img/a.png" "asset").from_cache = true ∧
    (download_file env4 d4 "https://x.test/img/a.png" "site/img/a.png" "asset").requests =
      [("https://x.test/img/a.png", [("If-None-Match", "W4")])] ∧
    List.lookup "https://x.test/img/a.png"
      (download_file env4 d4 "https://x.test/img/a.png" "site/img/a.png" "asset").d.downloaded_assets =
      some "site/img/a.png" :=
  C4_304_self_heal.1 env4 d4 "https://x.test/img/a.png" "site/img/a.png" "asset" "W4"
    entry4 "site/img/a.png" ⟨304, [], []⟩ (by rfl) (by rfl) (by decide) (by rfl)
    (by decide) (by rfl) (by rfl) (by rfl)

/-! ## Claim C3 -/

/-- The asset-rejecting filter of the spec's scenario: `max_size = 1024`
bytes. -/
def fC3 : AssetFilter := mkAssetFilter [] [] [] [] none (some 1024)

def dC3 : Downloader :=
  ⟨"https://x.test", "x.test", "site", "/w", [], [], [], false, [], fC3, []⟩

/-- An origin serving a 2048-byte PNG. -/
def envC3 : Env :=
  ⟨fun u h => if u = "https://x.test/img/a.png" ∧ h = [] then
      some ⟨200, [("Content-Type", "image/png")], List.replicate 2048 0⟩
    else none,
   fun _ => [], id, "t0"⟩

/-- A failed asset task returns normally with the normalized URL as the
substituted reference, an unchanged downloader state, and the trace of the
failed download. -/
theorem assetTask_fail_run (env : Env) (d : Downloader)
    (url cur full lp : String)
    (hskip : ¬ (url = "" ∨ startsWithS url "data:" = true))
    (hnorm : normalize_url url cur = .ok full)
    (hsd : is_same_domain d full = .ok true)
    (hreg : List.lookup full d.downloaded_assets = none)
    (hlp : get_local_path d full = .ok (some lp))
    (hfail : (download_file env d full lp "asset").success = false) :
    downloadAssetTask env d url cur =
      .ok (full, d, (download_file env d full lp "asset").requests) ∧
    (download_file env d full lp "asset").d = d := by
  have hd : (download_file env d full lp "asset").d = d :=
    download_file_fail env d full lp "asset" hfail
  refine ⟨?_, hd⟩
  unfold downloadAssetTask
  rw [if_neg hskip]
  simp only [hnorm, hsd]
  rw [if_neg (by simp)]
  simp only [hreg, Option.isSome_none, Bool.false_eq_true, if_false, hlp]
  unfold taskDownload
  rcases hdf : download_file env d full lp "asset" with ⟨d1, s, ct, fc, rq⟩
  have hs : s = false := by rw [hdf] at hfail; exact hfail
  have hd1 : d1 = d := by rw [hdf] at hd; exact hd
  subst hs
  subst hd1
  simp [taskFinish, get_relative_path_from_cache, hreg]

/-- The filter rejects the 2048-byte body, so `download_file` fails. -/
theorem dfC3_success_false :
    (download_file envC3 dC3 "https://x.test/img/a.png" "site/img/a.png" "asset").success =
      false := by
  unfold download_file
  have hf : envC3.fetch "https://x.test/img/a.png"
      (getConditionalHeaders dC3 "https://x.test/img/a.png") =
      some ⟨200, [("Content-Type", "image/png")], List.replicate 2048 0⟩ := by rfl
  simp only [hf]
  rw [if_neg (by decide), if_neg (by decide)]
  unfold downloadBody
  rw [if_neg (by decide)]
  have hcat : get_asset_category "https://x.test/img/a.png"
      ((headerGet [("Content-Type", "image/png")] "content-type").getD "") = .ok "image" := by
    rfl
  simp only [hcat, List.length_replicate]
  rw [if_neg (by decide), if_pos (by decide)]

theorem dfC3_requests :
    (download_file envC3 dC3 "https://x.test/img/a.png" "site/img/a.png" "asset").requests =
      [("https://x.test/img/a.png", [])] := by
  unfold download_file
  have hf : envC3.fetch "https://x.test/img/a.png"
      (getConditionalHeaders dC3 "https://x.test/img/a.png") =
      some ⟨200, [("Content-Type", "image/png")], List.replicate 2048 0⟩ := by rfl
  simp only [hf]
  rw [if_neg (by decide), if_neg (by decide)]
  exact downloadBody_requests envC3 dC3 "https://x.test/img/a.png" "site/img/a.png"
    "asset" _ _

/-- The concrete failed run of the C3 scenario. -/
theorem taskC3_run :
    downloadAssetTask envC3 dC3 "img/a.png" "https://x.test/page.html" =
      .ok ("https://x.test/img/a.png", dC3, [("https://x.test/img/a.png", [])]) := by
  have h := assetTask_fail_run envC3 dC3 "img/a.png" "https://x.test/page.html"
    "https://x.test/img/a.png" "site/img/a.png" (by decide) (by rfl) (by rfl)
    (by rfl) (by rfl) dfC3_success_false
  rw [h.1, dfC3_requests]

/-- C3 counterexample: the page references `img/a.png`, the filter rejects
the 2048-byte image, nothing is written — but the reference substituted
into the document is the normalized absolute URL
`https://x.test/img/a.png`, not the original reference `img/a.png` as it
appeared in the page. -/
theorem C3_counterexample :
    (downloadAssetTask envC3 dC3 "img/a.png" "https://x.test/page.html").map
        (fun o => o.1) = .ok "https://x.test/img/a.png" ∧
    (downloadAssetTask envC3 dC3 "img/a.png" "https://x.test/page.html").map
        (fun o => o.1) ≠ .ok "img/a.png" ∧
    (downloadAssetTask envC3 dC3 "img/a.png" "https://x.test/page.html").map
        (fun o => o.2.1.fs) = .ok [] := by
  have h1 : (downloadAssetTask envC3 dC3 "img/a.png" "https://x.test/page.html").map
      (fun o => o.1) = .ok "https://x.test/img/a.png" := by rw [taskC3_run]; rfl
  refine ⟨h1, ?_, by rw [taskC3_run]; rfl⟩
  intro hcontra
  have h2 := h1.symm.trans hcontra
  injection h2 with h3
  exact absurd h3 (by decide)

/-- C3 (amended): when a dispatched asset's download fails for any reason
(transport error, HTTP error status, or filter rejection such as a
`max_size` smaller than the body), the failure does not propagate to the
page (the task returns normally), no file is written and no state changes,
and the reference string substituted into the output document is the
*normalized absolute URL* of the asset — the original reference string is
returned only on the paths that skip the download entirely (`data:`,
cross-origin, or unmappable references). -/
theorem C3_asset_failure_amended (env : Env) (d : Downloader)
    (url cur full lp : String)
    (hskip : ¬ (url = "" ∨ startsWithS url "data:" = true))
    (hnorm : normalize_url url cur = .ok full)
    (hsd : is_same_domain d full = .ok true)
    (hreg : List.lookup full d.downloaded_assets = none)
    (hlp : get_local_path d full = .ok (some lp))
    (hfail : (download_file env d full lp "asset").success = false) :
    downloadAssetTask env d url cur =
      .ok (full, d, (download_file env d full lp "asset").requests) ∧
    (download_file env d full lp "asset").d = d :=
  assetTask_fail_run env d url cur full lp hskip hnorm hsd hreg hlp hfail

theorem C3_witness :
    downloadAssetTask envC3 dC3 "img/a.png" "https://x.test/page.html" =
      .ok ("https://x.test/img/a.png", dC3,
           (download_file envC3 dC3 "https://x.test/img/a.png" "site/img/a.png"
             "asset").requests) ∧
    (download_file envC3 dC3 "https://x.test/img/a.png" "site/img/a.png" "asset").d = dC3 :=
  C3_asset_failure_amended envC3 dC3 "img/a.png" "https://x.test/page.html"
    "https://x.test/img/a.png" "site/img/a.png" (by decide) (by rfl) (by rfl)
    (by rfl) (by rfl) dfC3_success_false

/-! ## Frontier lemmas shared by C1 and C2 -/

theorem enqueueLinks_visited (links : List String) :
    ∀ d : Downloader, (enqueueLinks d links).1.visited_urls = d.visited_urls := by
  induction links with
  | nil => intro d; rfl
  | cons l ls ih =>
    intro d
    unfold enqueueLinks
    cases hc : pageCanon l with
    | error e => rfl
    | ok cl =>
      have h : (enqueueLinks (if cl ∈ d.visited_urls then d
          else {d with pages_to_visit := d.pages_to_visit ++ [l]}) ls).1.visited_urls =
          d.visited_urls := by
        rw [ih]
        split <;> rfl
      exact h

theorem enqueueLinks_queue_mem (links : List String) :
    ∀ (d : Downloader) (l : String), l ∈ (enqueueLinks d links).1.pages_to_visit →
      l ∈ d.pages_to_visit ∨ ∃ cl, pageCanon l = .ok cl ∧ cl ∉ d.visited_urls := by
  induction links with
  | nil => intro d l h; exact Or.inl h
  | cons l0 ls ih =>
    intro d l h
    unfold enqueueLinks at h
    cases hc : pageCanon l0 with
    | error e =>
      simp only [hc] at h
      exact Or.inl h
    | ok cl =>
      simp only [hc] at h
      rcases ih _ l h with hq | ⟨cl2, hcl2, hnv⟩
      · by_cases hv : cl ∈ d.visited_urls
        · rw [if_pos hv] at hq
          exact Or.inl hq
        · rw [if_neg hv] at hq
          simp only at hq
          rcases List.mem_append.mp hq with hq2 | hq2
          · exact Or.inl hq2
          · have hl : l = l0 := by simpa using hq2
            subst hl
            exact Or.inr ⟨cl, hc, hv⟩
      · refine Or.inr ⟨cl2, hcl2, ?_⟩
        intro hmem
        apply hnv
        by_cases hv : cl ∈ d.visited_urls
        · rw [if_pos hv]
          exact hmem
        · rw [if_neg hv]
          exact hmem

theorem persistPage_visited (env : Env) (d : Downloader) (url : String) (r : HResponse) :
    (persistPage env d url r).visited_urls = d.visited_urls := by
  unfold persistPage
  split
  · rfl
  · rfl
  · split
    · split <;> rfl
    · rfl

theorem persistPage_queue (env : Env) (d : Downloader) (url : String) (r : HResponse) :
    (persistPage env d url r).pages_to_visit = d.pages_to_visit := by
  unfold persistPage
  split
  · rfl
  · rfl
  · split
    · split <;> rfl
    · rfl

theorem processPageBody_visited (env : Env) (d : Downloader) (url : String) :
    (processPageBody env d url).1.visited_urls = d.visited_urls := by
  unfold processPageBody
  split
  · rfl
  · split
    · rfl
    · split
      · rfl
      · split
        · rfl
        · split
          · rfl
          · rename_i links hlinks
            split
            · rename_i d2 heq
              have h := enqueueLinks_visited links d
              rw [heq] at h
              exact h
            · rename_i d2 heq
              have h := enqueueLinks_visited links d
              rw [heq] at h
              split
              · exact h
              · rw [persistPage_visited]
                exact h

theorem processPageBody_queue_mem (env : Env) (d : Downloader) (url : String) :
    ∀ l, l ∈ (processPageBody env d url).1.pages_to_visit →
      l ∈ d.pages_to_visit ∨ ∃ cl, pageCanon l = .ok cl ∧ cl ∉ d.visited_urls := by
  unfold processPageBody
  split
  · intro l h; exact Or.inl h
  · split
    · intro l h; exact Or.inl h
    · split
      · intro l h; exact Or.inl h
      · split
        · intro l h; exact Or.inl h
        · split
          · intro l h; exact Or.inl h
          · rename_i links hlinks
            split
            · rename_i d2 heq
              intro l h
              have h2 := enqueueLinks_queue_mem links d l
              rw [heq] at h2
              exact h2 h
            · rename_i d2 heq
              intro l h
              have h2 := enqueueLinks_queue_mem links d l
              rw [heq] at h2
              split at h
              · exact h2 h
              · rw [persistPage_queue] at h
                exact h2 h

/-- After `process_page` runs on a URL whose canonical form parses, that
canonical form is in the visited set. -/
theorem processPage_visited_mem (env : Env) (d : Downloader) (u c : String)
    (d1 : Downloader) (r1 : List Request)
    (hc : pageCanon u = .ok c) (hp : processPage env d u = .ok (d1, r1)) :
    c ∈ d1.visited_urls := by
  unfold processPage at hp
  simp only [hc] at hp
  by_cases hv : c ∈ d.visited_urls
  · rw [if_pos hv] at hp
    injection hp with hp
    have hd : d1 = d := (congrArg Prod.fst hp.symm)
    rw [hd]
    exact hv
  · rw [if_neg hv] at hp
    injection hp with hp
    have hd : d1 = (processPageBody env {d with visited_urls := c :: d.visited_urls} u).1 :=
      congrArg Prod.fst hp.symm
    rw [hd, processPageBody_visited]
    exact List.mem_cons_self c d.visited_urls

/-! ## Claim C1 -/

/-- C1: the engine fetches each resource at most once.  Page side: when two
URLs have the same canonical form (fragment stripped, query stripped for
non-transform URLs), processing the second after the first issues no HTTP
request and leaves the state unchanged — `process_page` marks the
canonical form visited before fetching and returns immediately when it is
already visited.  Asset side: when the canonical URL is already in the
asset registry, the task returns the registered entry's relative reference
with no request and no state change. -/
theorem C1_at_most_once :
    (∀ (env : Env) (d : Downloader) (u1 u2 c : String) (d1 : Downloader)
        (r1 : List Request),
      pageCanon u1 = .ok c → pageCanon u2 = .ok c →
      processPage env d u1 = .ok (d1, r1) →
      processPage env d1 u2 = .ok (d1, [])) ∧
    (∀ (env : Env) (d : Downloader) (url cur full rel : String),
      ¬ (url = "" ∨ startsWithS url "data:" = true) →
      normalize_url url cur = .ok full →
      is_same_domain d full = .ok true →
      (List.lookup full d.downloaded_assets).isSome = true →
      get_relative_path_from_cache d full cur = .ok rel →
      downloadAssetTask env d url cur = .ok (rel, d, [])) := by
  constructor
  · intro env d u1 u2 c d1 r1 hc1 hc2 hp1
    have hmem : c ∈ d1.visited_urls := processPage_visited_mem env d u1 c d1 r1 hc1 hp1
    unfold processPage
    simp only [hc2]
    rw [if_pos hmem]
  · intro env d url cur full rel hskip hnorm hsd hreg hrel
    unfold downloadAssetTask
    rw [if_neg hskip]
    simp only [hnorm, hsd]
    rw [if_neg (by simp), if_pos hreg]
    unfold taskFinish
    simp only [hrel]

/-- An environment that can serve nothing: any issued request would fail,
so a run that succeeds provably fetched nothing. -/
def envNop : Env := ⟨fun _ _ => none, fun _ => [], id, "t0"⟩

/-- A state whose registry already holds the stylesheet. -/
def d1w : Downloader :=
  ⟨"https://x.test", "x.test", "site", "/w", [],
   [("https://x.test/s.css", "site/s.css")], [], true, [], noFilter, []⟩

theorem C1_witness :
    downloadAssetTask envNop d1w "/s.css" "https://x.test/index.html" =
      .ok ("s.css", d1w, []) :=
  C1_at_most_once.2 envNop d1w "/s.css" "https://x.test/index.html"
    "https://x.test/s.css" "s.css" (by decide) (by rfl) (by rfl) (by rfl) (by rfl)

/-! ## Claim C2 -/

/-- An origin whose pages `a.html` and `b.html` both link to `/c.html`. -/
def envC2 : Env :=
  ⟨fun u _ =>
    if u = "https://x.test/a.html" ∨ u = "https://x.test/b.html" then
      some ⟨200, [("Content-Type", "text/html")], []⟩
    else none,
   fun _ => ["/c.html"], id, "t0"⟩

/-- The frontier after processing `a.html` and then `b.html` from a fresh
state. -/
def c2Queue : Except String (List String) :=
  match processPage envC2 d0 "https://x.test/a.html" with
  | .error e => .error e
  | .ok p1 =>
    match processPage envC2 p1.1 "https://x.test/b.html" with
    | .error e => .error e
    | .ok p2 => .ok p2.1.pages_to_visit

/-- C2 counterexample: two distinct pages that each link to the same
not-yet-visited URL `/c.html` leave that URL present in the frontier queue
twice — the enqueue check consults only the visited set, never the queue. -/
theorem C2_counterexample :
    c2Queue = .ok ["https://x.test/c.html", "https://x.test/c.html"] := by rfl

/-- C2 (amended): a URL may enter the queue once per referring page
processed while it is unvisited, so it can be present in the queue more
than once; deduplication happens at dequeue instead.  A dequeued URL whose
canonical form is already visited is dropped with no fetch and no state
change; when a dequeued URL is fetched (its request trace is non-empty),
its canonical form was unvisited and is marked visited before the fetch;
and a link is never enqueued when its canonical form is already visited. -/
theorem C2_frontier_amended :
    (∀ (env : Env) (d : Downloader) (u c : String),
      pageCanon u = .ok c → c ∈ d.visited_urls →
      processPage env d u = .ok (d, [])) ∧
    (∀ (env : Env) (d : Downloader) (u c : String) (d2 : Downloader)
        (reqs : List Request),
      pageCanon u = .ok c → processPage env d u = .ok (d2, reqs) → reqs ≠ [] →
      c ∉ d.visited_urls ∧ c ∈ d2.visited_urls) ∧
    (∀ (env : Env) (d : Downloader) (u : String) (d2 : Downloader)
        (reqs : List Request) (l : String),
      processPage env d u = .ok (d2, reqs) → l ∈ d2.pages_to_visit →
      l ∈ d.pages_to_visit ∨ ∃ cl, pageCanon l = .ok cl ∧ cl ∉ d.visited_urls) := by
  refine ⟨?_, ?_, ?_⟩
  · intro env d u c hc hv
    unfold processPage
    simp only [hc]
    rw [if_pos hv]
  · intro env d u c d2 reqs hc hp hne
    unfold processPage at hp
    simp only [hc] at hp
    by_cases hv : c ∈ d.visited_urls
    · rw [if_pos hv] at hp
      injection hp with hp
      exact absurd (congrArg Prod.snd hp.symm) hne
    · rw [if_neg hv] at hp
      injection hp with hp
      have hd : d2 = (processPageBody env {d with visited_urls := c :: d.visited_urls} u).1 :=
        congrArg Prod.fst hp.symm
      refine ⟨hv, ?_⟩
      rw [hd, processPageBody_visited]
      exact List.mem_cons_self c d.visited_urls
  · intro env d u d2 reqs l hp hl
    unfold processPage at hp
    cases hc : pageCanon u with
    | error e =>
      simp only [hc] at hp
      exact absurd hp (by simp)
    | ok c =>
      simp only [hc] at hp
      by_cases hv : c ∈ d.visited_urls
      · rw [if_pos hv] at hp
        injection hp with hp
        have hd : d2 = d := congrArg Prod.fst hp.symm
        rw [hd] at hl
        exact Or.inl hl
      · rw [if_neg hv] at hp
        injection hp with hp
        have hd : d2 = (processPageBody env {d with visited_urls := c :: d.visited_urls} u).1 :=
          congrArg Prod.fst hp.symm
        rw [hd] at hl
        rcases processPageBody_queue_mem env {d with visited_urls := c :: d.visited_urls} u
            l hl with hq | ⟨cl, hcl, hnv⟩
        · exact Or.inl hq
        · refine Or.inr ⟨cl, hcl, fun hmem => hnv ?_⟩
          exact List.mem_cons_of_mem _ hmem

/-- A state that has already visited the canonical form of `a.html`. -/
def dC2v : Downloader :=
  ⟨"https://x.test", "x.test", "site", "/w", ["https://x.test/a.html"], [], [],
   true, [], noFilter, []⟩

theorem C2_witness :
    processPage envC2 dC2v "https://x.test/a.html?utm=1" = .ok (dC2v, []) :=
  C2_frontier_amended.1 envC2 dC2v "https://x.test/a.html?utm=1"
    "https://x.test/a.html" (by rfl) (by decide)

/-! ## Claim C10 -/

/-- C10: the path mapping is partial.  For a URL whose (unquoted) path
contains `/_next/image` but whose query carries no `url` parameter,
`get_local_path` returns `None`; the asset task guards against this `None`
by returning the original reference with no fetch and no state change; and
the page-persist step guards by writing nothing. -/
theorem C10_next_image_none :
    (∀ (d : Downloader) (url : String) (parsed : ParseResult),
      urlparseE url = .ok parsed →
      containsS (pyUnquote parsed.path) "/_next/image" = true →
      List.lookup "url" (pyParseQs parsed.query) = none →
      get_local_path d url = .ok none) ∧
    (∀ (env : Env) (d : Downloader) (url cur full : String),
      ¬ (url = "" ∨ startsWithS url "data:" = true) →
      normalize_url url cur = .ok full →
      is_same_domain d full = .ok true →
      List.lookup full d.downloaded_assets = none →
      get_local_path d full = .ok none →
      downloadAssetTask env d url cur = .ok (url, d, [])) ∧
    (∀ (env : Env) (d : Downloader) (url : String) (r : HResponse),
      get_local_path d url = .ok none →
      persistPage env d url r = d) := by
  refine ⟨?_, ?_, ?_⟩
  · intro d url parsed hparse hsub hurl
    unfold get_local_path get_local_path_for_nextjs_image
    simp only [hparse, hsub, hurl]
    simp
  · intro env d url cur full hskip hnorm hsd hreg hglp
    unfold downloadAssetTask
    rw [if_neg hskip]
    simp only [hnorm, hsd]
    rw [if_neg (by simp)]
    simp only [hreg, Option.isSome_none, Bool.false_eq_true, if_false, hglp]
  · intro env d url r hglp
    unfold persistPage
    simp only [hglp]

theorem C10_witness :
    get_local_path d0 "https://x.test/_next/image?w=640&q=75" = .ok none :=
  C10_next_image_none.1 d0 "https://x.test/_next/image?w=640&q=75"
    ⟨"https", "x.test", "/_next/image", "", "w=640&q=75", ""⟩ (by rfl) (by rfl) (by rfl)

end PagePull
